import Mathlib

/-!
# Namespace apply orchestration (`pkg/environment/apply.go`)

A shallow embedding of the apply session of the cloud-platform command line tool.

* Go strings are Lean strings, the Go `error` interface is `Option String`
  (`none` is `nil`, `some msg` is an error whose `Error()` text is `msg`).
* External collaborators (file system, process environment, the Applier, the
  GitHub client, helpers of the `util` package) are fields of `World`, `Applier`
  and `GithubIface`: total functions of their arguments.
* Effects are recorded as a list of `Event`s, in program order.
-/

namespace Environment

/-- The Go `error` interface: `none` is `nil`. -/
abbrev GoError := Option String

/-! ## Standard library functions used by the source -/

namespace strings

/-- Whether the character list starts with `p` (`strings.HasPrefix`). -/
def hasPrefixChars : List Char → List Char → Bool
  | _, [] => true
  | [], _ :: _ => false
  | c :: cs, p :: ps => c == p && hasPrefixChars cs ps

/-- Whether `sub` occurs in the character list as a contiguous block. -/
def containsChars : List Char → List Char → Bool
  | [], sub => sub.isEmpty
  | c :: cs, sub => hasPrefixChars (c :: cs) sub || containsChars cs sub

/-- Go `strings.Contains(s, substr)`: `substr` is within `s`. -/
def Contains (s substr : String) : Bool :=
  containsChars s.data substr.data

/-- Splitting a character list at every occurrence of the one-character
separator; `cur` is the current segment, reversed. -/
def splitChars (sep : Char) : List Char → List Char → List String
  | [], cur => [String.mk cur.reverse]
  | c :: cs, cur =>
    if c == sep then String.mk cur.reverse :: splitChars sep cs []
    else splitChars sep cs (c :: cur)

/-- Go `strings.Split(s, sep)` for a separator of one character, the only way
the source calls it (`strings.Split(dir, "/")`). -/
def Split (s : String) (sep : Char) : List String :=
  splitChars sep s.data []

end strings

/-- Outcome of `os.Stat(path)`, as far as the source inspects it: `err == nil`,
`os.IsNotExist(err)`, or another error. -/
inductive StatResult where
  | ok
  | notExist
  | otherErr
  deriving DecidableEq, Repr

/-! ## Data model -/

/-- Options are used to configure plan/apply sessions. -/
structure Options where
  Namespace : String
  KubecfgPath : String
  ClusterCtx : String
  ClusterDir : String
  GithubToken : String
  PRNumber : Int
  BuildUrl : String
  AllNamespaces : Bool
  EnableApplySkip : Bool
  RedactedEnv : Bool
  SkipProdDestroy : Bool
  BatchApplyIndex : Int
  BatchApplySize : Int
  OnlySkipFileChanged : Bool
  IsApplyPipeline : Bool
  deriving DecidableEq, Repr

/-- RequiredEnvVars stores values such as TF_VAR_, github and pingdom tokens. -/
structure RequiredEnvVars where
  clustername : String
  clusterstatebucket : String
  kubernetescluster : String
  githubowner : String
  githubtoken : String
  SlackBotToken : String
  SlackWebhookUrl : String
  pingdomapitoken : String
  deriving DecidableEq, Repr

/-- The `Applier` interface, restricted to the two methods the apply path
calls. Each returns `(output, err)`. -/
structure Applier where
  KubectlApply : String → String → Bool → String × GoError
  TerraformInitAndApply : String → String → String × GoError

/-- A changed file of a pull request (`github.CommitFile`); `Filename` is a
`*string` in Go, `none` is the nil pointer. -/
structure CommitFile where
  Filename : Option String
  deriving DecidableEq, Repr

/-- The `github.GithubIface` interface, restricted to the methods `Apply` calls. -/
structure GithubIface where
  IsMerged : Int → Bool × GoError
  GetChangedFiles : Int → List CommitFile × GoError

/-- Apply is used to store objects in a Apply/Plan session. `Options` is a
pointer in Go; functions that write through it return the new value. -/
structure Apply where
  Options : Options
  RequiredEnvVars : RequiredEnvVars
  Applier : Applier
  Dir : String
  GithubClient : Option GithubIface

/-- Everything outside `apply.go` that the apply path consults.

* `Stat`, `Setenv`: `os.Stat`, `os.Setenv`.
* `IsYamlFileExists`, `IsFilePathExists`, `GetLatestGitPull`: helpers of the
  `util` package. `GetLatestGitPull` takes no argument in Go; its outcome is
  indexed here by the directory of the task that performs the pull.
* `NewApplier`: the constructor of the real Applier.
* `envVars`: the values `Apply.Initialize` stores in `RequiredEnvVars` (per
  the documentation of `NewApply`); `Initialize` is assumed to return.
* `nsChangedInPR`: the helper deriving the changed namespaces of a pull request. -/
structure World where
  Stat : String → StatResult
  Setenv : String → String → GoError
  IsYamlFileExists : String → Bool
  IsFilePathExists : String → Bool × GoError
  GetLatestGitPull : String → GoError
  NewApplier : String → String → Applier
  envVars : RequiredEnvVars
  nsChangedInPR : List CommitFile → String → Bool → List String × GoError

/-- Observable effects, in program order. `callNotifyUserApplyFailed` and
`callApplyNamespace` mark the entry into the function of that name; the others
are calls that leave the process. -/
inductive Event where
  | KubectlApply (nspace dir : String) (dryRun : Bool)
  | TerraformInitAndApply (nspace dir : String)
  | SlackNotify (prNumber slackToken webhookUrl buildUrl : String)
  | Setenv (key value : String)
  | callNotifyUserApplyFailed (prNumber : Int) (slackToken webhookUrl buildUrl : String)
  | callApplyNamespace (nspace : String)
  deriving DecidableEq, Repr

/-- The event is a call to the Applier (either method). -/
def Event.isApplierCall : Event → Bool
  | .KubectlApply _ _ _ => true
  | .TerraformInitAndApply _ _ => true
  | _ => false

/-- The event is a call to the Applier's `TerraformInitAndApply`. -/
def Event.isTerraform : Event → Bool
  | .TerraformInitAndApply _ _ => true
  | _ => false

/-- The event is a call to the Notifier (`slack.Notify`). -/
def Event.isSlackNotify : Event → Bool
  | .SlackNotify _ _ _ _ => true
  | _ => false

/-- The event is an entry into `notifyUserApplyFailed`. -/
def Event.isNotifyCall : Event → Bool
  | .callNotifyUserApplyFailed _ _ _ _ => true
  | _ => false

/-! ## Operations -/

/-- `notifyUserApplyFailed`: the result of `slack.Notify` is only printed, so
it does not appear. `fmt.Sprintf("%d", n)` is the decimal rendering. -/
def notifyUserApplyFailed (prNumberInt : Int) (slackToken webhookUrl buildUrl : String) :
    List Event :=
  Event.callNotifyUserApplyFailed prNumberInt slackToken webhookUrl buildUrl ::
    (if prNumberInt > 0 && strings.Contains buildUrl "http" then
      let prNumber := toString prNumberInt
      [Event.SlackNotify prNumber slackToken webhookUrl buildUrl]
    else [])

/-- `Apply.Initialize`, not part of this file in Go: populates `RequiredEnvVars`. -/
def Apply.Initialize (w : World) (a : Apply) : Apply :=
  { a with RequiredEnvVars := w.envVars }

/-- The zero value of `RequiredEnvVars`. -/
def RequiredEnvVars.zero : RequiredEnvVars :=
  ⟨"", "", "", "", "", "", "", ""⟩

/-- `NewApply` creates a new Apply object from (a copy of) the options. -/
def NewApply (w : World) (opt : Options) (nspace : String) : Apply :=
  let apply : Apply :=
    { Options := opt
      RequiredEnvVars := RequiredEnvVars.zero
      Applier := w.NewApplier "/usr/local/bin/terraform" "/usr/local/bin/kubectl"
      Dir := "namespaces/" ++ opt.ClusterDir ++ "/" ++ nspace
      GithubClient := none }
  apply.Initialize w

/-- `applyKubectl` calls the applier's KubectlApply with dry-run disabled. -/
def Apply.applyKubectl (a : Apply) : List Event × String × GoError :=
  let (outputKubectl, err) := a.Applier.KubectlApply a.Options.Namespace a.Dir false
  let ev := [Event.KubectlApply a.Options.Namespace a.Dir false]
  match err with
  | some e =>
    (ev, "", some ("error running kubectl on namespace " ++ a.Options.Namespace ++ ": "
      ++ e ++ " \n " ++ outputKubectl))
  | none => (ev, outputKubectl, none)

/-- `applyTerraform` calls the applier's TerraformInitAndApply, after checking
that the directory contains the namespace. -/
def Apply.applyTerraform (a : Apply) : List Event × String × GoError :=
  let tfFolder := a.Dir ++ "/resources"
  if !strings.Contains a.Dir a.Options.Namespace then
    ([], "", some ("error running terraform as directory and namespace are not aligned Dir="
      ++ a.Dir ++ " and Namespace=" ++ a.Options.Namespace))
  else
    let (outputTerraform, err) := a.Applier.TerraformInitAndApply a.Options.Namespace tfFolder
    let ev := [Event.TerraformInitAndApply a.Options.Namespace tfFolder]
    match err with
    | some e =>
      (ev, "", some ("error running terraform on namespace " ++ a.Options.Namespace ++ ": "
        ++ e ++ " \n " ++ outputTerraform))
    | none => (ev, outputTerraform, none)

/-- `secretBlockerExists` checks if the file SECRET_ROTATE_BLOCK exists. -/
def secretBlockerExists (w : World) (filePath : String) : Bool :=
  let secretBlocker := "SECRET_ROTATE_BLOCK"
  if w.Stat (filePath ++ "/" ++ secretBlocker) = StatResult.ok then true else false

/-- `applySkipExists` checks if the file APPLY_PIPELINE_SKIP_THIS_NAMESPACE exists. -/
def applySkipExists (w : World) (filePath : String) : Bool :=
  let applySkip := "APPLY_PIPELINE_SKIP_THIS_NAMESPACE"
  if w.Stat (filePath ++ "/" ++ applySkip) = StatResult.ok then true else false

/-- The notification both failure branches of `applyNamespace` perform: guarded
by `OnlySkipFileChanged` and `IsApplyPipeline` of the caller's options. -/
def Apply.notifyOnFailure (a applier : Apply) : List Event :=
  if !a.Options.OnlySkipFileChanged && !a.Options.IsApplyPipeline then
    notifyUserApplyFailed a.Options.PRNumber applier.RequiredEnvVars.SlackBotToken
      applier.RequiredEnvVars.SlackWebhookUrl a.Options.BuildUrl
  else []

/-- The Apply object `applyNamespace` works with: `NewApply(*a.Options, namespace)`
followed by `applier.Options.Namespace = namespace`. -/
def Apply.applierFor (w : World) (a : Apply) (nspace : String) : Apply :=
  let applier := NewApply w a.Options nspace
  { applier with Options := { applier.Options with Namespace := nspace } }

/-- The local `repoPath` of `applyNamespace`. -/
def Apply.repoPath (a : Apply) (nspace : String) : String :=
  "namespaces/" ++ a.Options.ClusterDir ++ "/" ++ nspace

/-- `applyNamespace`: the policy gate, then kubectl apply, then terraform init
and apply. Returns the events and the returned error. -/
def Apply.applyNamespace (w : World) (a : Apply) (nspace : String) : List Event × GoError :=
  let repoPath := a.repoPath nspace
  if w.Stat repoPath = StatResult.notExist then ([], none)
  else if secretBlockerExists w repoPath then ([], none)
  else if a.Options.EnableApplySkip && applySkipExists w repoPath then ([], none)
  else
    let applier := a.applierFor w nspace
    let kube : List Event × GoError :=
      if w.IsYamlFileExists repoPath then
        let (ev, _, err) := applier.applyKubectl
        (ev, err)
      else ([], none)
    match kube with
    | (ev1, some err) => (ev1 ++ a.notifyOnFailure applier, some err)
    | (ev1, none) =>
      let (pathExists, err) := w.IsFilePathExists (repoPath ++ "/resources")
      let ev2 := ev1 ++ [Event.Setenv "KUBE_CONFIG_PATH" a.Options.KubecfgPath]
      match w.Setenv "KUBE_CONFIG_PATH" a.Options.KubecfgPath with
      | some e => (ev2, some e)
      | none =>
        if err.isNone && pathExists then
          let applier := { applier with GithubClient := a.GithubClient }
          match applier.applyTerraform with
          | (ev3, _, some err) => (ev2 ++ ev3 ++ a.notifyOnFailure applier, some err)
          | (ev3, _, none) => (ev2 ++ ev3, none)
        else (ev2, none)

/-- The namespace passes the policy gate: none of the three early returns of
`applyNamespace` is taken. -/
def Apply.passesGate (w : World) (a : Apply) (nspace : String) : Bool :=
  decide (w.Stat (a.repoPath nspace) ≠ StatResult.notExist) &&
  !secretBlockerExists w (a.repoPath nspace) &&
  !(a.Options.EnableApplySkip && applySkipExists w (a.repoPath nspace))

/-- Error of the manifest-apply step of `applyNamespace`: the error of
`applyKubectl` when the namespace has yaml files, `none` when the step
succeeds or is skipped. -/
def Apply.manifestError (w : World) (a : Apply) (nspace : String) : GoError :=
  if w.IsYamlFileExists (a.repoPath nspace) then (a.applierFor w nspace).applyKubectl.2.2
  else none

/-- Error of the infra-apply step of `applyNamespace`: the error of
`applyTerraform` when the step is reached (no manifest error, `os.Setenv`
succeeded) and the resources folder exists; `none` when the step succeeds or
is not run. -/
def Apply.infraError (w : World) (a : Apply) (nspace : String) : GoError :=
  if a.manifestError w nspace = none ∧
      w.Setenv "KUBE_CONFIG_PATH" a.Options.KubecfgPath = none ∧
      (w.IsFilePathExists (a.repoPath nspace ++ "/resources")).2 = none ∧
      (w.IsFilePathExists (a.repoPath nspace ++ "/resources")).1 = true then
    ({ a.applierFor w nspace with GithubClient := a.GithubClient } : Apply).applyTerraform.2.2
  else none

/-- The world in which `os.Stat(path)` has outcome `r`, everything else unchanged. -/
def World.withStat (w : World) (path : String) (r : StatResult) : World :=
  { w with Stat := fun q => if q = path then r else w.Stat q }

/-- The loop of `Apply` over the changed namespaces: a namespace is applied
when `os.Stat(namespace)` returns an error; the first error ends the loop. -/
def Apply.applyChangedNamespaces (w : World) (a : Apply) : List String → List Event × GoError
  | [] => ([], none)
  | nspace :: rest =>
    if w.Stat nspace ≠ StatResult.ok then
      match a.applyNamespace w nspace with
      | (ev, some err) => (Event.callApplyNamespace nspace :: ev, some err)
      | (ev, none) =>
        let (evs, err) := applyChangedNamespaces w a rest
        (Event.callApplyNamespace nspace :: ev ++ evs, err)
    else applyChangedNamespaces w a rest

/-- The value `Apply` stores in `Options.OnlySkipFileChanged`: `false`, replaced
when `len(repos) == 1` by whether `*repos[0].Filename` contains the name of the
skip file. `none` is the nil-pointer dereference. -/
def onlySkipFileChanged (repos : List CommitFile) : Option Bool :=
  match repos with
  | [file] =>
    match file.Filename with
    | some name => some (strings.Contains name "APPLY_PIPELINE_SKIP_THIS_NAMESPACE")
    | none => none
  | _ => some false

/-- `Apply` is the entry point for performing a namespace apply. The result is
the final value of `*a.Options`, the events and the returned error; `none` is a
nil-pointer panic (no GitHub client, or a changed file without a name). -/
def Apply.Apply (w : World) (a : Apply) :
    Option (Environment.Options × List Event × GoError) :=
  if a.Options.PRNumber = 0 && a.Options.Namespace = "" then
    some (a.Options, [],
      some "either a PR ID/Number or a namespace is required to perform apply")
  else if a.Options.Namespace ≠ "" then
    match a.applyNamespace w a.Options.Namespace with
    | (ev, some err) => some (a.Options, Event.callApplyNamespace a.Options.Namespace :: ev, some err)
    | (ev, none) => some (a.Options, Event.callApplyNamespace a.Options.Namespace :: ev, none)
  else
    match a.GithubClient with
    | none => none
    | some gh =>
      match gh.IsMerged a.Options.PRNumber with
      | (_, some err) => some (a.Options, [], some err)
      | (isMerged, none) =>
        if isMerged then
          let (repos, err) := gh.GetChangedFiles a.Options.PRNumber
          match onlySkipFileChanged repos with
          | none => none
          | some flag =>
            let a := { a with Options := { a.Options with OnlySkipFileChanged := flag } }
            match err with
            | some e => some (a.Options, [], some e)
            | none =>
              match w.nsChangedInPR repos a.Options.ClusterDir false with
              | (_, some e) => some (a.Options, [], some e)
              | (changedNamespaces, none) =>
                let (ev, err) := a.applyChangedNamespaces w changedNamespaces
                some (a.Options, ev, err)
        else some (a.Options, [], none)

/-- The function literal of `runApply`, evaluated for one directory: the string
sent on the results channel. `none` is the index-out-of-range panic of `ns[2]`. -/
def Apply.runApplyTask (w : World) (a : Environment.Apply) (dir : String) : Option String :=
  let ns := strings.Split dir '/'
  match ns[2]? with
  | none => none
  | some nspace =>
    let pull : GoError :=
      match w.GetLatestGitPull dir with
      | some pullErr => if strings.Contains pullErr "index.lock" then none else some pullErr
      | none => none
    match pull with
    | some msg => some msg
    | none =>
      match (a.applyNamespace w nspace).2 with
      | some err => some ("Error in namespace: " ++ nspace ++ "\n" ++ err)
      | none => some ""

/-! ## The dispatcher of `applyNamespaceDirs`

Goroutines and unbuffered channels are modelled as an interleaving transition
system: a state, and one function per kind of goroutine giving its next move,
if it has one. A schedule is the list of goroutines that move, in order. -/

/-- The goroutine started by `runApply`, between two channel operations. -/
inductive Worker where
  /-- Blocked in `for dir := range dirStream`. -/
  | idle
  /-- Evaluating the function literal for `dir` (the send operand of the select). -/
  | running (dir : String)
  /-- Blocked in the select on `results <- res`. -/
  | sending (res : String)
  /-- `dirStream` was closed: the loop ended and `results` is closed. -/
  | closed
  deriving DecidableEq, Repr

/-- Modelled from the spec: `util.FanIn` is not part of the source at hand. Per
the spec a fan-in stage merges all worker streams into one consumed by the
caller: one forwarding goroutine per worker stream, between two channel
operations. -/
inductive Transfer where
  /-- Blocked receiving from the worker stream. -/
  | waiting
  /-- Blocked sending `res` on the merged stream. -/
  | holding (res : String)
  /-- The worker stream was closed and drained. -/
  | finished
  deriving DecidableEq, Repr

/-- One worker with the forwarding goroutine reading its result stream. -/
structure Lane where
  worker : Worker
  transfer : Transfer
  deriving DecidableEq, Repr

/-- State of one `applyNamespaceDirs` call. `pending` holds the directories
`util.Generator` has not handed to a worker yet; `lanes` has one entry per
started worker; `erroredNs` is the slice the caller appends every received
result to. -/
structure Dispatch where
  pending : List String
  lanes : List Lane
  erroredNs : List String
  deriving DecidableEq, Repr

/-- A goroutine of the dispatcher that can be scheduled. -/
inductive Actor where
  | worker (i : Nat)
  | transfer (i : Nat)
  deriving DecidableEq, Repr

/-- Modelled from the spec: `util.Generator` is not part of the source at hand.
Per the spec one producer emits the tasks onto a shared queue. What a worker
blocked in `range dirStream` receives: the next directory not handed out yet,
with those that remain; or `none`, the stream being closed once every
directory was handed out. -/
def Generator.receive (pending : List String) : Option (String × List String) :=
  match pending with
  | dir :: rest => some (dir, rest)
  | [] => none

/-- `parallelApplyNamespace` starts `numRoutines` workers on the shared stream
(and `util.FanIn` one forwarder for each); nothing is collected yet.
`runtime.GOMAXPROCS` does not change the number of goroutines. -/
def Dispatch.init (chunkFolder : List String) (numRoutines : Nat) : Dispatch :=
  { pending := chunkFolder
    lanes := List.replicate numRoutines ⟨Worker.idle, Transfer.waiting⟩
    erroredNs := [] }

/-- Next move of worker `i` (`runApply`): receive a directory, or see the
stream closed; evaluate the function literal; hand the result to its result
stream. `none`: the worker is blocked, has returned, or the literal panics.
The `done` channel is closed only when `applyNamespaceDirs` returns, so its
select case is never ready. -/
def Dispatch.workerStep (task : String → Option String) (s : Dispatch) (i : Nat) :
    Option Dispatch :=
  match s.lanes[i]? with
  | none => none
  | some l =>
    match l.worker with
    | Worker.idle =>
      match Generator.receive s.pending with
      | some (dir, rest) =>
        some { s with pending := rest, lanes := s.lanes.set i { l with worker := Worker.running dir } }
      | none => some { s with lanes := s.lanes.set i { l with worker := Worker.closed } }
    | Worker.running dir =>
      match task dir with
      | some res => some { s with lanes := s.lanes.set i { l with worker := Worker.sending res } }
      | none => none
    | Worker.sending res =>
      match l.transfer with
      | Transfer.waiting => some { s with lanes := s.lanes.set i ⟨Worker.idle, Transfer.holding res⟩ }
      | _ => none
    | Worker.closed => none

/-- Modelled from the spec: next move of the forwarder of lane `i` in
`util.FanIn` (not part of the source at hand): pass a held result to the
caller, whose `for res := range results` loop appends it to `erroredNs`; or
finish once its worker stream is closed. `none`: blocked or returned. -/
def Dispatch.transferStep (s : Dispatch) (i : Nat) : Option Dispatch :=
  match s.lanes[i]? with
  | none => none
  | some l =>
    match l.transfer with
    | Transfer.holding res =>
      some { s with lanes := s.lanes.set i { l with transfer := Transfer.waiting },
                    erroredNs := s.erroredNs ++ [res] }
    | Transfer.waiting =>
      match l.worker with
      | Worker.closed => some { s with lanes := s.lanes.set i { l with transfer := Transfer.finished } }
      | _ => none
    | Transfer.finished => none

/-- One move of the scheduled goroutine. -/
def Dispatch.step (task : String → Option String) (s : Dispatch) : Actor → Option Dispatch
  | Actor.worker i => s.workerStep task i
  | Actor.transfer i => s.transferStep i

/-- Running a schedule; `none` if a scheduled goroutine cannot move. -/
def Dispatch.exec (task : String → Option String) : Dispatch → List Actor → Option Dispatch
  | s, [] => some s
  | s, act :: rest =>
    match s.step task act with
    | some s1 => exec task s1 rest
    | none => none

/-- Every forwarder has finished: the merged stream is closed and the caller's
`range` loop ends. -/
def Dispatch.finished (s : Dispatch) : Bool :=
  s.lanes.all (fun l => decide (l.transfer = Transfer.finished))

/-- Number of per-namespace apply calls in flight: workers evaluating the
function literal. -/
def Dispatch.inFlight (s : Dispatch) : Nat :=
  s.lanes.countP (fun l => match l.worker with | Worker.running _ => true | _ => false)

/-- The state a call of `applyNamespaceDirs` is in after the moves `sched` of
its goroutines: the workers are those `parallelApplyNamespace(done, chunkStream,
3)` starts, each running `runApply`. `none`: some scheduled goroutine cannot
move. -/
def Apply.applyNamespaceDirsRun (w : World) (a : Environment.Apply) (chunkFolder : List String)
    (sched : List Actor) : Option Dispatch :=
  (Dispatch.init chunkFolder 3).exec (a.runApplyTask w) sched

/-- `applyNamespaceDirs` under a schedule of its goroutines: once the merged
stream is closed, returns the collected list (printed by the source) and a nil
error. `none`: the call has not returned after `sched`. -/
def Apply.applyNamespaceDirs (w : World) (a : Environment.Apply) (chunkFolder : List String)
    (sched : List Actor) : Option (List String × GoError) :=
  match a.applyNamespaceDirsRun w chunkFolder sched with
  | some s => if s.finished then some (s.erroredNs, none) else none
  | none => none

/-! ### Accounting for the dispatcher -/

/-- Moves a worker in this state still makes when no further directory
arrives: finish the current task, hand it over, see the stream closed. -/
def Worker.cost : Worker → Nat
  | Worker.idle => 1
  | Worker.running _ => 4
  | Worker.sending _ => 3
  | Worker.closed => 0

/-- Moves a forwarder in this state still makes when no further result arrives. -/
def Transfer.cost : Transfer → Nat
  | Transfer.waiting => 1
  | Transfer.holding _ => 2
  | Transfer.finished => 0

/-- Moves left for one lane. -/
def Lane.cost (l : Lane) : Nat :=
  l.worker.cost + l.transfer.cost

/-- Moves left before every goroutine has returned: four for each pending
directory (receive, evaluate, hand over, collect) plus those of the lanes. -/
def Dispatch.cost (s : Dispatch) : Nat :=
  4 * s.pending.length + (s.lanes.map Lane.cost).sum

/-- Task results a lane carries: that of the directory being evaluated, the
result waiting to be handed over, the result waiting to be collected. -/
def Lane.held (task : String → Option String) (l : Lane) : Multiset (Option String) :=
  (match l.worker with
    | Worker.running dir => {task dir}
    | Worker.sending res => {some res}
    | _ => 0) +
  (match l.transfer with
    | Transfer.holding res => {some res}
    | _ => 0)

/-- All task results of a state, as a multiset: those of the pending
directories, those carried by the lanes, those already collected. -/
def Dispatch.outcomes (task : String → Option String) (s : Dispatch) :
    Multiset (Option String) :=
  ((s.pending.map task : List (Option String)) : Multiset (Option String)) +
    (s.lanes.map (Lane.held task)).sum +
    ((s.erroredNs.map some : List (Option String)) : Multiset (Option String))

/-- The moves of `Dispatch.step` seen from the lane that moves: pending
directories, lane and collected results before and after. -/
inductive LaneMove (task : String → Option String) :
    List String → Lane → List String → List String → Lane → List String → Prop where
  | receive (dir : String) (rest : List String) (t : Transfer) (e : List String) :
    LaneMove task (dir :: rest) ⟨Worker.idle, t⟩ e rest ⟨Worker.running dir, t⟩ e
  | stop (t : Transfer) (e : List String) :
    LaneMove task [] ⟨Worker.idle, t⟩ e [] ⟨Worker.closed, t⟩ e
  | eval (p : List String) (dir res : String) (t : Transfer) (e : List String) :
    task dir = some res →
    LaneMove task p ⟨Worker.running dir, t⟩ e p ⟨Worker.sending res, t⟩ e
  | send (p : List String) (res : String) (e : List String) :
    LaneMove task p ⟨Worker.sending res, Transfer.waiting⟩ e
      p ⟨Worker.idle, Transfer.holding res⟩ e
  | merge (p : List String) (wk : Worker) (res : String) (e : List String) :
    LaneMove task p ⟨wk, Transfer.holding res⟩ e p ⟨wk, Transfer.waiting⟩ (e ++ [res])
  | finish (p : List String) (e : List String) :
    LaneMove task p ⟨Worker.closed, Transfer.waiting⟩ e
      p ⟨Worker.closed, Transfer.finished⟩ e

/-- Invariant of the dispatcher started on `chunkFolder` with `n` workers: the
number of lanes; no task result is lost or duplicated; a worker only returns
once no directory is pending; a forwarder only finishes after its worker. -/
def Dispatch.Inv (task : String → Option String) (chunkFolder : List String) (n : Nat)
    (s : Dispatch) : Prop :=
  s.lanes.length = n ∧
  s.outcomes task = ((chunkFolder.map task : List (Option String)) : Multiset (Option String)) ∧
  ((∃ l ∈ s.lanes, l.worker = Worker.closed) → s.pending = []) ∧
  (∀ l ∈ s.lanes, l.transfer = Transfer.finished → l.worker = Worker.closed)

/-- The session with `Options.EnableApplySkip` set to `enable`, everything else
unchanged. -/
def Apply.withEnableApplySkip (a : Environment.Apply) (enable : Bool) : Environment.Apply :=
  { a with Options := { a.Options with EnableApplySkip := enable } }

/-! ## Concrete sessions -/

/-- An Applier with fixed outcomes for its two methods. -/
def exampleApplier (kubectlErr terraformErr : GoError) : Applier :=
  { KubectlApply := fun _ _ _ => ("kubectl output", kubectlErr)
    TerraformInitAndApply := fun _ _ => ("terraform output", terraformErr) }

/-- Options of a session on cluster directory `live` for pull request 7. -/
def exampleOptions (enableApplySkip : Bool) : Options :=
  { Namespace := "", KubecfgPath := "/kube/config", ClusterCtx := "", ClusterDir := "live",
    GithubToken := "", PRNumber := 7, BuildUrl := "http://ci/builds/1",
    AllNamespaces := false, EnableApplySkip := enableApplySkip, RedactedEnv := false,
    SkipProdDestroy := false, BatchApplyIndex := 0, BatchApplySize := 0,
    OnlySkipFileChanged := false, IsApplyPipeline := false }

/-- A world whose file system holds exactly the paths `files`; every namespace
has yaml files and a resources folder; the real Applier is `applier`. -/
def exampleWorld (files : List String) (applier : Applier) : World :=
  { Stat := fun p => if p ∈ files then StatResult.ok else StatResult.notExist
    Setenv := fun _ _ => none
    IsYamlFileExists := fun _ => true
    IsFilePathExists := fun _ => (true, none)
    GetLatestGitPull := fun _ => none
    NewApplier := fun _ _ => applier
    envVars := RequiredEnvVars.zero
    nsChangedInPR := fun repos _ _ =>
      (repos.filterMap (fun f => f.Filename.bind (fun n => (strings.Split n '/')[2]?)), none) }

/-- A session with the given options and no GitHub client. -/
def exampleApply (opts : Options) : Apply :=
  { Options := opts, RequiredEnvVars := RequiredEnvVars.zero,
    Applier := exampleApplier none none, Dir := "", GithubClient := none }

/-- A GitHub client for a merged pull request with the given changed files. -/
def exampleGithub (files : List String) : GithubIface :=
  { IsMerged := fun _ => (true, none)
    GetChangedFiles := fun _ => (files.map (fun f => CommitFile.mk (some f)), none) }

/-- A session for pull request 7 (no namespace given) with changed files `files`. -/
def examplePRApply (files : List String) : Apply :=
  { exampleApply (exampleOptions false) with GithubClient := some (exampleGithub files) }

/-- A complete schedule for two directories: workers 0 and 1 take one
directory each, their results are collected, then every goroutine returns. -/
def exampleSchedule : List Actor :=
  [Actor.worker 0, Actor.worker 1, Actor.worker 0, Actor.worker 1, Actor.worker 0,
   Actor.worker 1, Actor.transfer 0, Actor.transfer 1, Actor.worker 2, Actor.worker 1,
   Actor.worker 0, Actor.transfer 0, Actor.transfer 1, Actor.transfer 2]

/-- A complete schedule for three directories: each worker takes one directory,
evaluates it and hands the result over; the results are collected; then every
goroutine returns. -/
def exampleSchedule3 : List Actor :=
  [Actor.worker 0, Actor.worker 1, Actor.worker 2, Actor.worker 0, Actor.worker 1,
   Actor.worker 2, Actor.worker 0, Actor.worker 1, Actor.worker 2, Actor.transfer 0,
   Actor.transfer 1, Actor.transfer 2, Actor.worker 0, Actor.worker 1, Actor.worker 2,
   Actor.transfer 0, Actor.transfer 1, Actor.transfer 2]

/-- The state after `exampleSchedule` when kubectl fails for every namespace
and only `namespaces/live/foo` exists. -/
def exampleFinalState : Dispatch :=
  { pending := []
    lanes := List.replicate 3 ⟨Worker.closed, Transfer.finished⟩
    erroredNs :=
      ["Error in namespace: foo\nerror running kubectl on namespace foo: exit status 1 \n kubectl output",
       ""] }

/-! ## Readings of the specification's words -/

namespace Spec

/-- The path names the apply-skip sentinel: its last segment is
`APPLY_PIPELINE_SKIP_THIS_NAMESPACE`. -/
def isApplySkipSentinel (path : String) : Bool :=
  (strings.Split path '/').getLast? == some "APPLY_PIPELINE_SKIP_THIS_NAMESPACE"

/-- Characters of a URI scheme after the first. -/
def isSchemeChar (c : Char) : Bool :=
  c.isAlphanum || c == '+' || c == '-' || c == '.'

/-- A syntactic reading of "well-formed URL": a scheme (a letter, then letters,
digits, `+`, `-`, `.`), a colon, a non-empty remainder, and no whitespace or
control character anywhere. -/
def isWellFormedURL (u : String) : Bool :=
  let cs := u.data
  (match cs.takeWhile isSchemeChar with
    | c :: _ => c.isAlpha
    | [] => false) &&
  (match cs.dropWhile isSchemeChar with
    | ':' :: _ :: _ => true
    | _ => false) &&
  cs.all (fun c => decide (32 < c.toNat) && decide (c.toNat ≠ 127))

end Spec

/-! # Theorems -/

/-! ## Strings -/

theorem String.ne_append_of_ne_empty (s t : String) (ht : t ≠ "") : s ≠ s ++ t := by
  intro h
  have hl := congrArg String.length h
  rw [String.length_append] at hl
  have : t.length = 0 := by omega
  exact ht (String.ext (List.length_eq_zero.mp this))

theorem String.append_left_ne (s t u : String) (h : t ≠ u) : s ++ t ≠ s ++ u := by
  intro he
  apply h
  have hd := congrArg String.data he
  simp only [String.data_append] at hd
  exact String.ext (List.append_cancel_left hd)

theorem hasPrefixChars_iff : ∀ (s p : List Char),
    strings.hasPrefixChars s p = true ↔ List.IsPrefix p s
  | _, [] => by simp [strings.hasPrefixChars]
  | [], _ :: _ => by simp [strings.hasPrefixChars]
  | c :: cs, p :: ps => by
    simp only [strings.hasPrefixChars, Bool.and_eq_true, beq_iff_eq, hasPrefixChars_iff cs ps,
      List.cons_prefix_cons]
    constructor
    · rintro ⟨h1, h2⟩
      exact ⟨h1.symm, h2⟩
    · rintro ⟨h1, h2⟩
      exact ⟨h1.symm, h2⟩

theorem containsChars_iff : ∀ (s sub : List Char),
    strings.containsChars s sub = true ↔ List.IsInfix sub s
  | [], sub => by
    simp [strings.containsChars, List.isEmpty_iff]
  | c :: cs, sub => by
    simp only [strings.containsChars, Bool.or_eq_true, hasPrefixChars_iff,
      containsChars_iff cs sub]
    rw [List.infix_cons_iff]

/-- `strings.Contains` holds exactly when the characters of `substr` form a
contiguous block of those of `s`. -/
theorem Contains_iff_isInfix (s substr : String) :
    strings.Contains s substr = true ↔ List.IsInfix substr.data s.data :=
  containsChars_iff s.data substr.data

/-! ## The policy gate -/

theorem applyNamespace_of_blocker (w : World) (a : Environment.Apply) (nspace : String)
    (h : w.Stat (a.repoPath nspace ++ "/" ++ "SECRET_ROTATE_BLOCK") = StatResult.ok) :
    a.applyNamespace w nspace = ([], none) := by
  unfold Apply.applyNamespace
  simp [secretBlockerExists, h]

/-- C1: a namespace whose directory exists and holds the SECRET_ROTATE_BLOCK
file is skipped whatever the value of `EnableApplySkip`: `applyNamespace`
returns nil and performs no Applier call (indeed no effect at all). -/
theorem applyNamespace_secret_blocker (w : World) (a : Environment.Apply) (nspace : String)
    (hdir : w.Stat (a.repoPath nspace) = StatResult.ok)
    (hblock : w.Stat (a.repoPath nspace ++ "/" ++ "SECRET_ROTATE_BLOCK") = StatResult.ok)
    (enable : Bool) :
    (Apply.applyNamespace w { a with Options := { a.Options with EnableApplySkip := enable } }
        nspace).2 = none ∧
    ∀ e ∈ (Apply.applyNamespace w
        { a with Options := { a.Options with EnableApplySkip := enable } } nspace).1,
      e.isApplierCall = false := by
  have _ := hdir
  rw [applyNamespace_of_blocker w _ nspace (by simpa [Apply.repoPath] using hblock)]
  simp

theorem applyNamespace_secret_blocker_witness :
    ((exampleApply (exampleOptions false)).applyNamespace
        (exampleWorld ["namespaces/live/foo", "namespaces/live/foo/SECRET_ROTATE_BLOCK"]
          (exampleApplier none none)) "foo").2 = none ∧
    ∀ e ∈ ((exampleApply (exampleOptions false)).applyNamespace
        (exampleWorld ["namespaces/live/foo", "namespaces/live/foo/SECRET_ROTATE_BLOCK"]
          (exampleApplier none none)) "foo").1,
      e.isApplierCall = false :=
  applyNamespace_secret_blocker
    (exampleWorld ["namespaces/live/foo", "namespaces/live/foo/SECRET_ROTATE_BLOCK"]
      (exampleApplier none none))
    (exampleApply (exampleOptions false)) "foo" (by decide) (by decide) false

theorem World.withStat_of_ne (w : World) (p q : String) (r : StatResult) (h : q ≠ p) :
    (w.withStat p r).Stat q = w.Stat q := by
  simp [World.withStat, h]

/-! ## The apply pipeline -/

theorem applyNamespace_of_passesGate (w : World) (a : Environment.Apply) (nspace : String)
    (hgate : a.passesGate w nspace = true) :
    a.applyNamespace w nspace =
      (match (if w.IsYamlFileExists (a.repoPath nspace) then
          ((a.applierFor w nspace).applyKubectl.1, (a.applierFor w nspace).applyKubectl.2.2)
        else (([], none) : List Event × GoError)) with
      | (ev1, some err) => (ev1 ++ a.notifyOnFailure (a.applierFor w nspace), some err)
      | (ev1, none) =>
        match w.Setenv "KUBE_CONFIG_PATH" a.Options.KubecfgPath with
        | some e => (ev1 ++ [Event.Setenv "KUBE_CONFIG_PATH" a.Options.KubecfgPath], some e)
        | none =>
          if (w.IsFilePathExists (a.repoPath nspace ++ "/resources")).2.isNone &&
              (w.IsFilePathExists (a.repoPath nspace ++ "/resources")).1 then
            match ({ a.applierFor w nspace with GithubClient := a.GithubClient }
                : Environment.Apply).applyTerraform with
            | (ev3, _, some err) =>
              (ev1 ++ [Event.Setenv "KUBE_CONFIG_PATH" a.Options.KubecfgPath] ++ ev3 ++
                a.notifyOnFailure
                  { a.applierFor w nspace with GithubClient := a.GithubClient }, some err)
            | (ev3, _, none) =>
              (ev1 ++ [Event.Setenv "KUBE_CONFIG_PATH" a.Options.KubecfgPath] ++ ev3, none)
          else (ev1 ++ [Event.Setenv "KUBE_CONFIG_PATH" a.Options.KubecfgPath], none)) := by
  simp only [Apply.passesGate, Bool.and_eq_true, Bool.not_eq_true', decide_eq_true_eq] at hgate
  obtain ⟨⟨h1, h2⟩, h3⟩ := hgate
  unfold Apply.applyNamespace
  simp only [h1, h2, h3, if_false, Bool.false_eq_true]

theorem applyKubectl_of_error (b : Environment.Apply) (output kubectlErr : String)
    (h : b.Applier.KubectlApply b.Options.Namespace b.Dir false = (output, some kubectlErr)) :
    b.applyKubectl =
      ([Event.KubectlApply b.Options.Namespace b.Dir false], "",
        some ("error running kubectl on namespace " ++ b.Options.Namespace ++ ": " ++
          kubectlErr ++ " \n " ++ output)) := by
  unfold Apply.applyKubectl
  rw [h]

theorem applyKubectl_of_success (b : Environment.Apply) (output : String)
    (h : b.Applier.KubectlApply b.Options.Namespace b.Dir false = (output, none)) :
    b.applyKubectl = ([Event.KubectlApply b.Options.Namespace b.Dir false], output, none) := by
  unfold Apply.applyKubectl
  rw [h]

/-- C3: for a namespace that passes the policy gate and has yaml resources, an
error from the Applier's `KubectlApply` makes `applyNamespace` return an error
without any `TerraformInitAndApply` call, whatever the state of the resources
subdirectory. -/
theorem applyNamespace_kubectl_failure (w : World) (a : Environment.Apply) (nspace : String)
    (hgate : a.passesGate w nspace = true)
    (hyaml : w.IsYamlFileExists (a.repoPath nspace) = true)
    (output kubectlErr : String)
    (hfail : (w.NewApplier "/usr/local/bin/terraform" "/usr/local/bin/kubectl").KubectlApply
      nspace (a.repoPath nspace) false = (output, some kubectlErr)) :
    (a.applyNamespace w nspace).2 ≠ none ∧
    ∀ e ∈ (a.applyNamespace w nspace).1, e.isTerraform = false := by
  have hk : (a.applierFor w nspace).applyKubectl =
      ([Event.KubectlApply nspace (a.repoPath nspace) false], "",
        some ("error running kubectl on namespace " ++ nspace ++ ": " ++ kubectlErr ++
          " \n " ++ output)) := by
    exact applyKubectl_of_error (a.applierFor w nspace) output kubectlErr hfail
  rw [applyNamespace_of_passesGate w a nspace hgate]
  simp only [hyaml, if_true, hk]
  refine ⟨by simp, ?_⟩
  intro e he
  simp only [List.mem_append, List.mem_singleton] at he
  rcases he with rfl | he
  · rfl
  · unfold Apply.notifyOnFailure notifyUserApplyFailed at he
    split at he
    · simp only [List.mem_cons] at he
      rcases he with rfl | he
      · rfl
      · split at he
        · simp only [List.mem_singleton] at he
          subst he
          rfl
        · simp at he
    · simp at he

theorem applyNamespace_kubectl_failure_witness :
    ((exampleApply (exampleOptions false)).applyNamespace
        (exampleWorld ["namespaces/live/foo"] (exampleApplier (some "exit status 1") none))
        "foo").2 ≠ none ∧
    ∀ e ∈ ((exampleApply (exampleOptions false)).applyNamespace
        (exampleWorld ["namespaces/live/foo"] (exampleApplier (some "exit status 1") none))
        "foo").1,
      e.isTerraform = false :=
  applyNamespace_kubectl_failure
    (exampleWorld ["namespaces/live/foo"] (exampleApplier (some "exit status 1") none))
    (exampleApply (exampleOptions false)) "foo" (by decide) (by decide)
    "kubectl output" "exit status 1" (by decide)

/-- C4: when `Dir` does not contain `Options.Namespace`, `applyTerraform`
returns an error and performs no call at all, in particular no
`TerraformInitAndApply`. -/
theorem applyTerraform_misaligned (a : Environment.Apply)
    (h : strings.Contains a.Dir a.Options.Namespace = false) :
    a.applyTerraform.2.2 ≠ none ∧ a.applyTerraform.1 = [] := by
  unfold Apply.applyTerraform
  simp [h]

theorem applyTerraform_misaligned_witness :
    (({ exampleApply { exampleOptions false with Namespace := "bar" } with
        Dir := "namespaces/foo/resources" } : Environment.Apply).applyTerraform).2.2 ≠ none ∧
    (({ exampleApply { exampleOptions false with Namespace := "bar" } with
        Dir := "namespaces/foo/resources" } : Environment.Apply).applyTerraform).1 = [] :=
  applyTerraform_misaligned
    { exampleApply { exampleOptions false with Namespace := "bar" } with
      Dir := "namespaces/foo/resources" } (by decide)

/-! ## The entry point `Apply` -/

theorem onlySkipFileChanged_map_some (files : List String) :
    onlySkipFileChanged (files.map (fun f => CommitFile.mk (some f))) =
      some (match files with
        | [f] => strings.Contains f "APPLY_PIPELINE_SKIP_THIS_NAMESPACE"
        | _ => false) := by
  match files with
  | [] => rfl
  | [_] => rfl
  | _ :: _ :: _ => rfl

theorem onlySkipFileChanged_flag_iff (files : List String) :
    (match files with
      | [f] => strings.Contains f "APPLY_PIPELINE_SKIP_THIS_NAMESPACE"
      | _ => false) = true ↔
      ∃ f, files = [f] ∧ strings.Contains f "APPLY_PIPELINE_SKIP_THIS_NAMESPACE" = true := by
  match files with
  | [] => simp
  | [f] => simp
  | _ :: _ :: _ => simp

/-- C7, as stated, fails: a pull request whose only changed file is
`APPLY_PIPELINE_SKIP_THIS_NAMESPACE.bak` (not the sentinel: its last path
segment is another name) makes `Apply` set `OnlySkipFileChanged` to true. -/
theorem Apply_onlySkipFileChanged_not_sentinel :
    Spec.isApplySkipSentinel
        "namespaces/live/team-b/APPLY_PIPELINE_SKIP_THIS_NAMESPACE.bak" = false ∧
    (Apply.Apply (exampleWorld [] (exampleApplier none none))
        (examplePRApply ["namespaces/live/team-b/APPLY_PIPELINE_SKIP_THIS_NAMESPACE.bak"])).map
      (fun r => r.1.OnlySkipFileChanged) = some true := by
  decide

/-- C7, amended: for a merged pull request whose changed files are `files`,
`Apply` returns with `Options.OnlySkipFileChanged` true if and only if `files`
is exactly one file whose name contains `APPLY_PIPELINE_SKIP_THIS_NAMESPACE`;
the flag is false for the two-file example and true for the lone skip file. -/
theorem Apply_onlySkipFileChanged (w : World) (a : Environment.Apply) (gh : GithubIface)
    (files : List String) (err : GoError)
    (hns : a.Options.Namespace = "") (hpr : a.Options.PRNumber ≠ 0)
    (hgh : a.GithubClient = some gh)
    (hmerged : gh.IsMerged a.Options.PRNumber = (true, none))
    (hfiles : gh.GetChangedFiles a.Options.PRNumber =
      (files.map (fun f => CommitFile.mk (some f)), err)) :
    (∃ r, Apply.Apply w a = some r ∧
      (r.1.OnlySkipFileChanged = true ↔
        ∃ f, files = [f] ∧ strings.Contains f "APPLY_PIPELINE_SKIP_THIS_NAMESPACE" = true)) ∧
    onlySkipFileChanged
      [CommitFile.mk (some "namespaces/live/team-a/00-namespace.yaml"),
       CommitFile.mk (some "namespaces/live/team-b/APPLY_PIPELINE_SKIP_THIS_NAMESPACE")]
      = some false ∧
    onlySkipFileChanged
      [CommitFile.mk (some "namespaces/live/team-b/APPLY_PIPELINE_SKIP_THIS_NAMESPACE")]
      = some true := by
  refine ⟨?_, by decide, by decide⟩
  have hflag := onlySkipFileChanged_flag_iff files
  unfold Apply.Apply
  simp only [hns, hpr, hgh, hmerged, hfiles, onlySkipFileChanged_map_some]
  simp only [decide_False, Bool.false_and, Bool.false_eq_true, if_false, ne_eq,
    not_true_eq_false, if_true]
  cases err with
  | some e => exact ⟨_, rfl, hflag⟩
  | none =>
    simp only
    split
    · exact ⟨_, rfl, hflag⟩
    · exact ⟨_, rfl, hflag⟩

theorem Apply_onlySkipFileChanged_witness :
    (∃ r, Apply.Apply (exampleWorld [] (exampleApplier none none))
        (examplePRApply ["namespaces/live/team-b/APPLY_PIPELINE_SKIP_THIS_NAMESPACE"])
        = some r ∧
      (r.1.OnlySkipFileChanged = true ↔
        ∃ f, ["namespaces/live/team-b/APPLY_PIPELINE_SKIP_THIS_NAMESPACE"] = [f] ∧
          strings.Contains f "APPLY_PIPELINE_SKIP_THIS_NAMESPACE" = true)) ∧
    onlySkipFileChanged
      [CommitFile.mk (some "namespaces/live/team-a/00-namespace.yaml"),
       CommitFile.mk (some "namespaces/live/team-b/APPLY_PIPELINE_SKIP_THIS_NAMESPACE")]
      = some false ∧
    onlySkipFileChanged
      [CommitFile.mk (some "namespaces/live/team-b/APPLY_PIPELINE_SKIP_THIS_NAMESPACE")]
      = some true :=
  Apply_onlySkipFileChanged (exampleWorld [] (exampleApplier none none))
    (examplePRApply ["namespaces/live/team-b/APPLY_PIPELINE_SKIP_THIS_NAMESPACE"])
    (exampleGithub ["namespaces/live/team-b/APPLY_PIPELINE_SKIP_THIS_NAMESPACE"])
    ["namespaces/live/team-b/APPLY_PIPELINE_SKIP_THIS_NAMESPACE"] none
    (by decide) (by decide) rfl rfl rfl

/-- C8, the code at the failing input: pull request 7 is merged and changes
namespace `team-a`, whose directory exists with yaml files and resources. When
a path named `team-a` exists in the working directory, `os.Stat("team-a")`
succeeds and `Apply` returns nil without calling `applyNamespace`; when no such
path exists, the namespace is applied. -/
theorem Apply_skips_namespace_when_stat_succeeds :
    (Apply.Apply (exampleWorld ["team-a", "namespaces/live/team-a"] (exampleApplier none none))
        (examplePRApply ["namespaces/live/team-a/00-namespace.yaml"])).map
      (fun r => (r.2.1, r.2.2)) = some ([], none) ∧
    (Apply.Apply (exampleWorld ["namespaces/live/team-a"] (exampleApplier none none))
        (examplePRApply ["namespaces/live/team-a/00-namespace.yaml"])).map
      (fun r => (r.2.1, r.2.2)) =
      some ([Event.callApplyNamespace "team-a",
             Event.KubectlApply "team-a" "namespaces/live/team-a" false,
             Event.Setenv "KUBE_CONFIG_PATH" "/kube/config",
             Event.TerraformInitAndApply "team-a" "namespaces/live/team-a/resources"], none) := by
  decide

/-! ## Notification -/

/-- C9, as stated, fails: with pull request number 7 and build URL
`not a url http`, which is not a well-formed URL, the Notifier is invoked. -/
theorem notifyUserApplyFailed_not_wellformed :
    Spec.isWellFormedURL "not a url http" = false ∧
    Event.SlackNotify "7" "token" "webhook" "not a url http" ∈
      notifyUserApplyFailed 7 "token" "webhook" "not a url http" := by
  decide

/-- C9, amended: `notifyUserApplyFailed` invokes the Notifier (`slack.Notify`)
exactly when `prNumber > 0` and `buildUrl` contains the substring `http`, and
then once, with the decimal pull request number and the given arguments. -/
theorem notifyUserApplyFailed_notifies_iff (prNumberInt : Int)
    (slackToken webhookUrl buildUrl : String) :
    ((∃ e ∈ notifyUserApplyFailed prNumberInt slackToken webhookUrl buildUrl,
        e.isSlackNotify = true) ↔
      (prNumberInt > 0 ∧ strings.Contains buildUrl "http" = true)) ∧
    (notifyUserApplyFailed prNumberInt slackToken webhookUrl buildUrl).filter
        Event.isSlackNotify =
      if prNumberInt > 0 ∧ strings.Contains buildUrl "http" = true then
        [Event.SlackNotify (toString prNumberInt) slackToken webhookUrl buildUrl]
      else [] := by
  unfold notifyUserApplyFailed
  by_cases h : prNumberInt > 0 ∧ strings.Contains buildUrl "http" = true
  · have h1 := h.1
    have h2 := h.2
    simp [h1, h2, Event.isSlackNotify]
  · have h3 : (decide (prNumberInt > 0) && strings.Contains buildUrl "http") = false := by
      rw [Bool.and_eq_false_iff]
      by_cases hp : prNumberInt > 0
      · right
        simpa using fun hc => h ⟨hp, hc⟩
      · left
        simpa using hp
    simp only [h3, h]
    simp [Event.isSlackNotify]

theorem applyKubectl_any_notify (b : Environment.Apply) :
    b.applyKubectl.1.any Event.isNotifyCall = false := by
  rcases h : b.Applier.KubectlApply b.Options.Namespace b.Dir false with ⟨o, _ | e⟩
  · rw [applyKubectl_of_success b o h]
    rfl
  · rw [applyKubectl_of_error b o e h]
    rfl

theorem applyTerraform_any_notify (b : Environment.Apply) :
    b.applyTerraform.1.any Event.isNotifyCall = false := by
  unfold Apply.applyTerraform
  split
  · rfl
  · rcases h : b.Applier.TerraformInitAndApply b.Options.Namespace (b.Dir ++ "/resources")
      with ⟨o, _ | e⟩
    · simp only [h]
      rfl
    · simp only [h]
      rfl

theorem notifyOnFailure_any_notify (a b : Environment.Apply) :
    (a.notifyOnFailure b).any Event.isNotifyCall =
      (!a.Options.OnlySkipFileChanged && !a.Options.IsApplyPipeline) := by
  unfold Apply.notifyOnFailure notifyUserApplyFailed
  cases a.Options.OnlySkipFileChanged <;> cases a.Options.IsApplyPipeline <;>
    simp [Event.isNotifyCall]

/-- C10: for a namespace that passes the policy gate, when the manifest-apply
or the infra-apply step fails with error `e`, `applyNamespace` returns exactly
`e`, and it enters `notifyUserApplyFailed` if and only if `OnlySkipFileChanged`
and `IsApplyPipeline` are both false; when neither step fails,
`notifyUserApplyFailed` is not entered. -/
theorem applyNamespace_failure_notification (w : World) (a : Environment.Apply)
    (nspace : String) (hgate : a.passesGate w nspace = true) :
    (∀ e, a.manifestError w nspace = some e ∨ a.infraError w nspace = some e →
      (a.applyNamespace w nspace).2 = some e ∧
      ((a.applyNamespace w nspace).1.any Event.isNotifyCall = true ↔
        (a.Options.OnlySkipFileChanged = false ∧ a.Options.IsApplyPipeline = false))) ∧
    (a.manifestError w nspace = none → a.infraError w nspace = none →
      (a.applyNamespace w nspace).1.any Event.isNotifyCall = false) := by
  rw [applyNamespace_of_passesGate w a nspace hgate]
  unfold Apply.infraError Apply.manifestError
  have hK := applyKubectl_any_notify (a.applierFor w nspace)
  have hT := applyTerraform_any_notify
    ({ a.applierFor w nspace with GithubClient := a.GithubClient } : Environment.Apply)
  have hN1 := notifyOnFailure_any_notify a (a.applierFor w nspace)
  have hN2 := notifyOnFailure_any_notify a
    ({ a.applierFor w nspace with GithubClient := a.GithubClient } : Environment.Apply)
  cases hY : w.IsYamlFileExists (a.repoPath nspace) <;>
  rcases hk : (a.applierFor w nspace).applyKubectl with ⟨ev, out, _ | ke⟩ <;>
  rcases hS : w.Setenv "KUBE_CONFIG_PATH" a.Options.KubecfgPath with _ | se <;>
  rcases hF : w.IsFilePathExists (a.repoPath nspace ++ "/resources") with ⟨_ | _, _ | fe⟩ <;>
  rcases ht : ({ a.applierFor w nspace with GithubClient := a.GithubClient }
    : Environment.Apply).applyTerraform with ⟨ev3, out3, _ | te⟩ <;>
  simp only [hk, ht] at hK hT <;>
  simp [hK, hT, hN1, hN2, Event.isNotifyCall]

theorem applyNamespace_failure_notification_witness :
    (∀ e,
      (exampleApply (exampleOptions false)).manifestError
          (exampleWorld ["namespaces/live/foo"] (exampleApplier (some "exit status 1") none))
          "foo" = some e ∨
        (exampleApply (exampleOptions false)).infraError
          (exampleWorld ["namespaces/live/foo"] (exampleApplier (some "exit status 1") none))
          "foo" = some e →
      ((exampleApply (exampleOptions false)).applyNamespace
          (exampleWorld ["namespaces/live/foo"] (exampleApplier (some "exit status 1") none))
          "foo").2 = some e ∧
      (((exampleApply (exampleOptions false)).applyNamespace
          (exampleWorld ["namespaces/live/foo"] (exampleApplier (some "exit status 1") none))
          "foo").1.any Event.isNotifyCall = true ↔
        ((exampleApply (exampleOptions false)).Options.OnlySkipFileChanged = false ∧
          (exampleApply (exampleOptions false)).Options.IsApplyPipeline = false))) ∧
    ((exampleApply (exampleOptions false)).manifestError
        (exampleWorld ["namespaces/live/foo"] (exampleApplier (some "exit status 1") none))
        "foo" = none →
      (exampleApply (exampleOptions false)).infraError
        (exampleWorld ["namespaces/live/foo"] (exampleApplier (some "exit status 1") none))
        "foo" = none →
      ((exampleApply (exampleOptions false)).applyNamespace
        (exampleWorld ["namespaces/live/foo"] (exampleApplier (some "exit status 1") none))
        "foo").1.any Event.isNotifyCall = false) :=
  applyNamespace_failure_notification
    (exampleWorld ["namespaces/live/foo"] (exampleApplier (some "exit status 1") none))
    (exampleApply (exampleOptions false)) "foo" (by decide)

/-! ## The dispatcher -/

theorem sum_map_set {α M : Type} [AddCommMonoid M] (f : α → M) :
    ∀ (l : List α) (i : Nat) (x y : α), l[i]? = some x →
      ((l.set i y).map f).sum + f x = (l.map f).sum + f y
  | [], i, x, y, h => by simp at h
  | a :: l, 0, x, y, h => by
    simp only [List.getElem?_cons_zero, Option.some.injEq] at h
    subst h
    simp only [List.set_cons_zero, List.map_cons, List.sum_cons]
    abel
  | a :: l, i + 1, x, y, h => by
    simp only [List.getElem?_cons_succ] at h
    have ih := sum_map_set f l i x y h
    simp only [List.set_cons_succ, List.map_cons, List.sum_cons, add_assoc, ih]

theorem mem_sum_map_of_mem {α β : Type} (f : α → Multiset β) (b : β) :
    ∀ (l : List α) (x : α), x ∈ l → b ∈ f x → b ∈ (l.map f).sum
  | a :: l, x, hx, hb => by
    simp only [List.map_cons, List.sum_cons, Multiset.mem_add]
    rcases List.mem_cons.mp hx with rfl | hx
    · exact Or.inl hb
    · exact Or.inr (mem_sum_map_of_mem f b l x hx hb)

theorem Dispatch.step_move (task : String → Option String) (s s1 : Dispatch) (act : Actor)
    (h : s.step task act = some s1) :
    ∃ i l l1, s.lanes[i]? = some l ∧ s1.lanes = s.lanes.set i l1 ∧
      LaneMove task s.pending l s.erroredNs s1.pending l1 s1.erroredNs := by
  cases act with
  | worker i =>
    simp only [Dispatch.step, Dispatch.workerStep] at h
    cases hl : s.lanes[i]? with
    | none => simp [hl] at h
    | some l =>
      obtain ⟨wk, t⟩ := l
      simp only [hl] at h
      cases wk with
      | idle =>
        cases hp : s.pending with
        | nil =>
          simp only [hp, Generator.receive, Option.some.injEq] at h
          subst h
          exact ⟨i, _, _, hl, rfl, by simpa [hp] using LaneMove.stop t s.erroredNs⟩
        | cons d ds =>
          simp only [hp, Generator.receive, Option.some.injEq] at h
          subst h
          exact ⟨i, _, _, hl, rfl, by simpa [hp] using LaneMove.receive d ds t s.erroredNs⟩
      | running d =>
        cases ht : task d with
        | none => simp [ht] at h
        | some r =>
          simp only [ht, Option.some.injEq] at h
          subst h
          exact ⟨i, _, _, hl, rfl, LaneMove.eval s.pending d r t s.erroredNs ht⟩
      | sending r =>
        cases t with
        | waiting =>
          simp only [Option.some.injEq] at h
          subst h
          exact ⟨i, _, _, hl, rfl, LaneMove.send s.pending r s.erroredNs⟩
        | holding _ => simp at h
        | finished => simp at h
      | closed => simp at h
  | transfer i =>
    simp only [Dispatch.step, Dispatch.transferStep] at h
    cases hl : s.lanes[i]? with
    | none => simp [hl] at h
    | some l =>
      obtain ⟨wk, t⟩ := l
      simp only [hl] at h
      cases t with
      | holding r =>
        simp only [Option.some.injEq] at h
        subst h
        exact ⟨i, _, _, hl, rfl, LaneMove.merge s.pending wk r s.erroredNs⟩
      | waiting =>
        cases wk with
        | closed =>
          simp only [Option.some.injEq] at h
          subst h
          exact ⟨i, _, _, hl, rfl, LaneMove.finish s.pending s.erroredNs⟩
        | idle => simp at h
        | running _ => simp at h
        | sending _ => simp at h
      | finished => simp at h

theorem LaneMove.cost_succ {task : String → Option String} {p p1 e e1 : List String}
    {l l1 : Lane} (h : LaneMove task p l e p1 l1 e1) :
    4 * p1.length + l1.cost + 1 = 4 * p.length + l.cost := by
  cases h with
  | receive d ds t e => cases t <;> simp [Lane.cost, Worker.cost, Transfer.cost] <;> omega
  | stop t e => cases t <;> simp [Lane.cost, Worker.cost, Transfer.cost]
  | eval p d r t e ht => cases t <;> simp [Lane.cost, Worker.cost, Transfer.cost]
  | send p r e => simp [Lane.cost, Worker.cost, Transfer.cost]
  | merge p wk r e => cases wk <;> simp [Lane.cost, Worker.cost, Transfer.cost]
  | finish p e => simp [Lane.cost, Worker.cost, Transfer.cost]

theorem LaneMove.held_eq {task : String → Option String} {p p1 e e1 : List String}
    {l l1 : Lane} (h : LaneMove task p l e p1 l1 e1) :
    ((p1.map task : List (Option String)) : Multiset (Option String)) + l1.held task +
        ((e1.map some : List (Option String)) : Multiset (Option String)) =
      ((p.map task : List (Option String)) : Multiset (Option String)) + l.held task +
        ((e.map some : List (Option String)) : Multiset (Option String)) := by
  cases h with
  | receive d ds t e =>
    simp only [Lane.held, List.map_cons, ← Multiset.cons_coe, ← Multiset.singleton_add]
    abel
  | stop t e => simp [Lane.held]
  | eval p d r t e ht => simp [Lane.held, ht]
  | send p r e => simp [Lane.held]
  | merge p wk r e =>
    simp only [Lane.held, List.map_append, List.map_cons, List.map_nil, ← Multiset.coe_add,
      ← Multiset.cons_coe, Multiset.coe_nil, Multiset.cons_zero, add_zero]
    abel
  | finish p e => simp [Lane.held]

theorem LaneMove.closed_cases {task : String → Option String} {p p1 e e1 : List String}
    {l l1 : Lane} (h : LaneMove task p l e p1 l1 e1) :
    (p1 = p ∧ (l1.worker = Worker.closed → l.worker = Worker.closed ∨ p = [])) ∨
      (p ≠ [] ∧ l1.worker ≠ Worker.closed) := by
  cases h with
  | receive d ds t e => exact Or.inr ⟨by simp, by simp⟩
  | stop t e => exact Or.inl ⟨rfl, fun _ => Or.inr rfl⟩
  | eval p d r t e ht => exact Or.inl ⟨rfl, by simp⟩
  | send p r e => exact Or.inl ⟨rfl, by simp⟩
  | merge p wk r e => exact Or.inl ⟨rfl, fun hc => Or.inl hc⟩
  | finish p e => exact Or.inl ⟨rfl, fun hc => Or.inl hc⟩

theorem LaneMove.finished_closed {task : String → Option String} {p p1 e e1 : List String}
    {l l1 : Lane} (h : LaneMove task p l e p1 l1 e1)
    (hl : l.transfer = Transfer.finished → l.worker = Worker.closed) :
    l1.transfer = Transfer.finished → l1.worker = Worker.closed := by
  cases h with
  | receive d ds t e => intro ht; exact absurd (hl ht) (by simp)
  | stop t e => intro _; rfl
  | eval p d r t e h => intro ht; exact absurd (hl ht) (by simp)
  | send p r e => intro ht; exact absurd ht (by simp)
  | merge p wk r e => intro ht; exact absurd ht (by simp)
  | finish p e => intro _; rfl

theorem Dispatch.cost_step (task : String → Option String) (s s1 : Dispatch) (act : Actor)
    (h : s.step task act = some s1) : s1.cost + 1 = s.cost := by
  obtain ⟨i, l, l1, hl, hset, hmove⟩ := Dispatch.step_move task s s1 act h
  have hsum := sum_map_set Lane.cost s.lanes i l l1 hl
  have hc := hmove.cost_succ
  unfold Dispatch.cost
  rw [hset]
  omega

theorem Dispatch.inv_step (task : String → Option String) (dirs : List String) (n : Nat)
    (s s1 : Dispatch) (act : Actor) (hinv : s.Inv task dirs n)
    (h : s.step task act = some s1) : s1.Inv task dirs n := by
  obtain ⟨i, l, l1, hl, hset, hmove⟩ := Dispatch.step_move task s s1 act h
  obtain ⟨hlen, hout, hclosed, hfin⟩ := hinv
  have hmem : l ∈ s.lanes := List.getElem?_mem hl
  refine ⟨?_, ?_, ?_, ?_⟩
  · rw [hset, List.length_set]
    exact hlen
  · have hsum := sum_map_set (Lane.held task) s.lanes i l l1 hl
    have hheld := hmove.held_eq
    rw [← hout]
    unfold Dispatch.outcomes
    rw [hset]
    apply add_right_cancel (b := l.held task)
    calc ((s1.pending.map task : List (Option String)) : Multiset (Option String)) +
            ((s.lanes.set i l1).map (Lane.held task)).sum +
            ((s1.erroredNs.map some : List (Option String)) : Multiset (Option String)) +
            l.held task
        = (((s.lanes.set i l1).map (Lane.held task)).sum + l.held task) +
            (((s1.pending.map task : List (Option String)) : Multiset (Option String)) +
            ((s1.erroredNs.map some : List (Option String)) : Multiset (Option String))) := by
          abel
      _ = (s.lanes.map (Lane.held task)).sum +
            (((s1.pending.map task : List (Option String)) : Multiset (Option String)) +
              l1.held task +
            ((s1.erroredNs.map some : List (Option String)) : Multiset (Option String))) := by
          rw [hsum]
          abel
      _ = ((s.pending.map task : List (Option String)) : Multiset (Option String)) +
            (s.lanes.map (Lane.held task)).sum +
            ((s.erroredNs.map some : List (Option String)) : Multiset (Option String)) +
            l.held task := by
          rw [hheld]
          abel
  · rintro ⟨l2, hl2, hc2⟩
    rw [hset] at hl2
    rcases hmove.closed_cases with ⟨hp, hcl⟩ | ⟨hp, hcl⟩
    · rw [hp]
      rcases List.mem_or_eq_of_mem_set hl2 with hin | heq
      · exact hclosed ⟨l2, hin, hc2⟩
      · subst heq
        rcases hcl hc2 with hc | hc
        · exact hclosed ⟨l, hmem, hc⟩
        · exact hc
    · rcases List.mem_or_eq_of_mem_set hl2 with hin | heq
      · exact absurd (hclosed ⟨l2, hin, hc2⟩) hp
      · subst heq
        exact absurd hc2 hcl
  · intro l2 hl2
    rw [hset] at hl2
    rcases List.mem_or_eq_of_mem_set hl2 with hin | heq
    · exact hfin l2 hin
    · subst heq
      exact hmove.finished_closed (hfin l hmem)

theorem Dispatch.inv_init (task : String → Option String) (dirs : List String) (n : Nat) :
    (Dispatch.init dirs n).Inv task dirs n := by
  refine ⟨by simp [Dispatch.init], ?_, ?_, ?_⟩
  · simp [Dispatch.outcomes, Dispatch.init, Lane.held]
  · rintro ⟨l, hl, hc⟩
    simp only [Dispatch.init, List.mem_replicate] at hl
    rw [hl.2] at hc
    exact absurd hc (by simp)
  · intro l hl ht
    simp only [Dispatch.init, List.mem_replicate] at hl
    rw [hl.2] at ht
    exact absurd ht (by simp)

theorem Dispatch.cost_init (dirs : List String) (n : Nat) :
    (Dispatch.init dirs n).cost = 4 * dirs.length + 2 * n := by
  simp [Dispatch.cost, Dispatch.init, Lane.cost, Worker.cost, Transfer.cost]
  omega

theorem Dispatch.exec_inv (task : String → Option String) (dirs : List String) (n : Nat) :
    ∀ (sched : List Actor) (s s1 : Dispatch), s.Inv task dirs n →
      s.exec task sched = some s1 → s1.Inv task dirs n
  | [], s, s1, hinv, h => by
    simp only [Dispatch.exec, Option.some.injEq] at h
    exact h ▸ hinv
  | act :: rest, s, s1, hinv, h => by
    simp only [Dispatch.exec] at h
    cases hs : s.step task act with
    | none => simp [hs] at h
    | some s2 =>
      simp only [hs] at h
      exact Dispatch.exec_inv task dirs n rest s2 s1 (Dispatch.inv_step task dirs n s s2 act hinv hs) h

theorem Dispatch.exec_cost (task : String → Option String) :
    ∀ (sched : List Actor) (s s1 : Dispatch),
      s.exec task sched = some s1 → s1.cost + sched.length = s.cost
  | [], s, s1, h => by
    simp only [Dispatch.exec, Option.some.injEq] at h
    simp [h]
  | act :: rest, s, s1, h => by
    simp only [Dispatch.exec] at h
    cases hs : s.step task act with
    | none => simp [hs] at h
    | some s2 =>
      simp only [hs] at h
      have h1 := Dispatch.exec_cost task rest s2 s1 h
      have h2 := Dispatch.cost_step task s s2 act hs
      simp only [List.length_cons]
      omega

theorem Dispatch.exec_append (task : String → Option String) :
    ∀ (sched rest : List Actor) (s s1 : Dispatch),
      s.exec task sched = some s1 → s.exec task (sched ++ rest) = s1.exec task rest
  | [], rest, s, s1, h => by
    simp only [Dispatch.exec, Option.some.injEq] at h
    simp [h]
  | act :: sched, rest, s, s1, h => by
    simp only [Dispatch.exec] at h
    cases hs : s.step task act with
    | none => simp [hs] at h
    | some s2 =>
      simp only [hs] at h
      simp only [List.cons_append, Dispatch.exec, hs]
      exact Dispatch.exec_append task sched rest s2 s1 h

theorem Dispatch.progress (task : String → Option String) (dirs : List String) (n : Nat)
    (htask : ∀ d ∈ dirs, task d ≠ none) (s : Dispatch) (hinv : s.Inv task dirs n)
    (hfin : s.finished = false) : ∃ act s1, s.step task act = some s1 := by
  obtain ⟨_, hout, _, _⟩ := hinv
  have hex : ∃ l ∈ s.lanes, l.transfer ≠ Transfer.finished := by
    simp only [Dispatch.finished, List.all_eq_false, decide_eq_true_eq] at hfin
    exact hfin
  obtain ⟨l, hl, ht⟩ := hex
  obtain ⟨i, hi⟩ := List.getElem?_of_mem hl
  obtain ⟨wk, t⟩ := l
  cases t with
  | finished => exact absurd rfl ht
  | holding r =>
    exact ⟨Actor.transfer i, by simp [Dispatch.step, Dispatch.transferStep, hi]⟩
  | waiting =>
    cases wk with
    | closed => exact ⟨Actor.transfer i, by simp [Dispatch.step, Dispatch.transferStep, hi]⟩
    | sending r => exact ⟨Actor.worker i, by simp [Dispatch.step, Dispatch.workerStep, hi]⟩
    | idle =>
      cases hp : s.pending with
      | nil =>
        exact ⟨Actor.worker i,
          by simp [Dispatch.step, Dispatch.workerStep, Generator.receive, hi, hp]⟩
      | cons d ds =>
        exact ⟨Actor.worker i,
          by simp [Dispatch.step, Dispatch.workerStep, Generator.receive, hi, hp]⟩
    | running d =>
      have hmem : task d ∈ s.outcomes task := by
        unfold Dispatch.outcomes
        simp only [Multiset.mem_add]
        refine Or.inl (Or.inr ?_)
        exact mem_sum_map_of_mem (Lane.held task) (task d) s.lanes _ hl (by simp [Lane.held])
      rw [hout] at hmem
      simp only [Multiset.mem_coe, List.mem_map] at hmem
      obtain ⟨d1, hd1, heq⟩ := hmem
      cases hr : task d with
      | none => exact absurd (heq.trans hr) (htask d1 hd1)
      | some r =>
        exact ⟨Actor.worker i, by simp [Dispatch.step, Dispatch.workerStep, hi, hr]⟩

theorem Dispatch.complete (task : String → Option String) (dirs : List String) (n : Nat)
    (htask : ∀ d ∈ dirs, task d ≠ none) :
    ∀ (c : Nat) (s : Dispatch), s.cost = c → s.Inv task dirs n →
      ∃ rest s1, s.exec task rest = some s1 ∧ s1.finished = true
  | c, s, hc, hinv => by
    cases hfin : s.finished with
    | true => exact ⟨[], s, rfl, hfin⟩
    | false =>
      obtain ⟨act, s2, hs⟩ := Dispatch.progress task dirs n htask s hinv hfin
      have hcost := Dispatch.cost_step task s s2 act hs
      have hlt : s2.cost < c := by omega
      obtain ⟨rest, s1, hex, hf⟩ :=
        Dispatch.complete task dirs n htask s2.cost s2 rfl (Dispatch.inv_step task dirs n s s2 act hinv hs)
      exact ⟨act :: rest, s1, by simp [Dispatch.exec, hs, hex], hf⟩
termination_by c => c

theorem Dispatch.finished_results (task : String → Option String) (dirs : List String)
    (n : Nat) (hn : 0 < n) (s : Dispatch) (hinv : s.Inv task dirs n)
    (hfin : s.finished = true) :
    (s.erroredNs.map some).Perm (dirs.map task) := by
  obtain ⟨hlen, hout, hclosed, hfc⟩ := hinv
  simp only [Dispatch.finished, List.all_eq_true, decide_eq_true_eq] at hfin
  have hne : s.lanes ≠ [] := by
    intro h
    rw [h] at hlen
    simp at hlen
    omega
  obtain ⟨l0, hl0⟩ := List.exists_mem_of_ne_nil s.lanes hne
  have hp : s.pending = [] := hclosed ⟨l0, hl0, hfc l0 hl0 (hfin l0 hl0)⟩
  have hheld : (s.lanes.map (Lane.held task)).sum = 0 := by
    apply List.sum_eq_zero
    intro x hx
    simp only [List.mem_map] at hx
    obtain ⟨l, hl, rfl⟩ := hx
    simp [Lane.held, hfin l hl, hfc l hl (hfin l hl)]
  unfold Dispatch.outcomes at hout
  rw [hp, hheld] at hout
  simp only [List.map_nil, Multiset.coe_nil, zero_add] at hout
  exact Multiset.coe_eq_coe.mp hout

theorem runApplyTask_ne_none (w : World) (a : Environment.Apply) (dir : String)
    (h : 3 ≤ (strings.Split dir '/').length) : a.runApplyTask w dir ≠ none := by
  unfold Apply.runApplyTask
  have hlt : 2 < (strings.Split dir '/').length := h
  simp only [List.getElem?_eq_getElem hlt]
  split
  · simp
  · split <;> simp

/-! ## Alignment of directory and namespace -/

theorem applierFor_aligned (w : World) (a : Environment.Apply) (nspace : String) :
    strings.Contains (a.applierFor w nspace).Dir (a.applierFor w nspace).Options.Namespace
      = true := by
  rw [Contains_iff_isInfix]
  have hdir : (a.applierFor w nspace).Dir.data =
      ("namespaces/" ++ a.Options.ClusterDir ++ "/").data ++ nspace.data := by
    simp [Apply.applierFor, NewApply, Apply.Initialize, String.data_append]
  have hns : (a.applierFor w nspace).Options.Namespace = nspace := rfl
  rw [hdir, hns]
  exact (List.suffix_append _ _).isInfix

theorem applyTerraform_events_of_aligned (b : Environment.Apply)
    (h : strings.Contains b.Dir b.Options.Namespace = true) :
    b.applyTerraform.1 =
      [Event.TerraformInitAndApply b.Options.Namespace (b.Dir ++ "/resources")] := by
  unfold Apply.applyTerraform
  simp only [h, Bool.not_true, Bool.false_eq_true, if_false]
  rcases hr : b.Applier.TerraformInitAndApply b.Options.Namespace (b.Dir ++ "/resources")
    with ⟨o, _ | e⟩
  · simp only [hr]
  · simp only [hr]

theorem applyNamespace_of_not_passesGate (w : World) (a : Environment.Apply) (nspace : String)
    (hgate : a.passesGate w nspace = false) : a.applyNamespace w nspace = ([], none) := by
  unfold Apply.applyNamespace
  simp only [Apply.passesGate] at hgate
  by_cases h1 : w.Stat (a.repoPath nspace) = StatResult.notExist
  · simp [h1]
  · cases h2 : secretBlockerExists w (a.repoPath nspace)
    · cases h3 : (a.Options.EnableApplySkip && applySkipExists w (a.repoPath nspace))
      · simp [h1, h2, h3] at hgate
      · simp [h1, h2, h3]
    · simp [h1, h2]

theorem applyKubectl_filter_terraform (b : Environment.Apply) :
    b.applyKubectl.1.filter Event.isTerraform = [] := by
  rcases h : b.Applier.KubectlApply b.Options.Namespace b.Dir false with ⟨o, _ | e⟩
  · rw [applyKubectl_of_success b o h]
    rfl
  · rw [applyKubectl_of_error b o e h]
    rfl

theorem notifyOnFailure_filter_terraform (a b : Environment.Apply) :
    (a.notifyOnFailure b).filter Event.isTerraform = [] := by
  unfold Apply.notifyOnFailure notifyUserApplyFailed
  split
  · split <;> rfl
  · rfl

/-- C11: for every session and namespace, the Apply object `applyNamespace`
builds passes the alignment check of `applyTerraform` (its `Dir` contains its
`Options.Namespace`), so `applyTerraform` on it always performs the one call
`TerraformInitAndApply(namespace, "namespaces/" + ClusterDir + "/" + namespace +
"/resources")`; and the `TerraformInitAndApply` calls of `applyNamespace` are
exactly that call when the infra step is reached, none otherwise. -/
theorem applyNamespace_terraform_aligned (w : World) (a : Environment.Apply)
    (nspace : String) :
    strings.Contains (a.applierFor w nspace).Dir (a.applierFor w nspace).Options.Namespace
      = true ∧
    (({ a.applierFor w nspace with GithubClient := a.GithubClient }
        : Environment.Apply).applyTerraform).1 =
      [Event.TerraformInitAndApply nspace
        ("namespaces/" ++ a.Options.ClusterDir ++ "/" ++ nspace ++ "/resources")] ∧
    (a.applyNamespace w nspace).1.filter Event.isTerraform =
      if a.passesGate w nspace = true ∧ a.manifestError w nspace = none ∧
          w.Setenv "KUBE_CONFIG_PATH" a.Options.KubecfgPath = none ∧
          (w.IsFilePathExists (a.repoPath nspace ++ "/resources")).2 = none ∧
          (w.IsFilePathExists (a.repoPath nspace ++ "/resources")).1 = true then
        [Event.TerraformInitAndApply nspace
          ("namespaces/" ++ a.Options.ClusterDir ++ "/" ++ nspace ++ "/resources")]
      else [] := by
  have halign := applierFor_aligned w a nspace
  have hT : (({ a.applierFor w nspace with GithubClient := a.GithubClient }
        : Environment.Apply).applyTerraform).1 =
      [Event.TerraformInitAndApply nspace
        ("namespaces/" ++ a.Options.ClusterDir ++ "/" ++ nspace ++ "/resources")] :=
    applyTerraform_events_of_aligned
      ({ a.applierFor w nspace with GithubClient := a.GithubClient } : Environment.Apply)
      halign
  refine ⟨halign, hT, ?_⟩
  cases hgate : a.passesGate w nspace with
  | false =>
    rw [applyNamespace_of_not_passesGate w a nspace hgate]
    simp
  | true =>
    rw [applyNamespace_of_passesGate w a nspace hgate]
    unfold Apply.manifestError
    have hK := applyKubectl_filter_terraform (a.applierFor w nspace)
    have hN1 := notifyOnFailure_filter_terraform a (a.applierFor w nspace)
    have hN2 := notifyOnFailure_filter_terraform a
      ({ a.applierFor w nspace with GithubClient := a.GithubClient } : Environment.Apply)
    cases hY : w.IsYamlFileExists (a.repoPath nspace) <;>
    rcases hk : (a.applierFor w nspace).applyKubectl with ⟨ev, out, _ | ke⟩ <;>
    rcases hS : w.Setenv "KUBE_CONFIG_PATH" a.Options.KubecfgPath with _ | se <;>
    rcases hF : w.IsFilePathExists (a.repoPath nspace ++ "/resources")
      with ⟨_ | _, _ | fe⟩ <;>
    rcases ht : ({ a.applierFor w nspace with GithubClient := a.GithubClient }
      : Environment.Apply).applyTerraform with ⟨ev3, out3, _ | te⟩ <;>
    simp only [hk, ht] at hK hT <;>
    simp [hK, hT, hN1, hN2, Event.isTerraform, List.filter_append]

theorem applyNamespace_terraform_aligned_witness :
    strings.Contains
        ((exampleApply (exampleOptions false)).applierFor
          (exampleWorld ["namespaces/live/foo"] (exampleApplier none none)) "foo").Dir
        ((exampleApply (exampleOptions false)).applierFor
          (exampleWorld ["namespaces/live/foo"] (exampleApplier none none))
          "foo").Options.Namespace = true ∧
    (({ (exampleApply (exampleOptions false)).applierFor
          (exampleWorld ["namespaces/live/foo"] (exampleApplier none none)) "foo" with
        GithubClient := (exampleApply (exampleOptions false)).GithubClient }
        : Environment.Apply).applyTerraform).1 =
      [Event.TerraformInitAndApply "foo"
        ("namespaces/" ++ (exampleApply (exampleOptions false)).Options.ClusterDir ++ "/" ++
          "foo" ++ "/resources")] ∧
    ((exampleApply (exampleOptions false)).applyNamespace
        (exampleWorld ["namespaces/live/foo"] (exampleApplier none none)) "foo").1.filter
        Event.isTerraform =
      if (exampleApply (exampleOptions false)).passesGate
            (exampleWorld ["namespaces/live/foo"] (exampleApplier none none)) "foo" = true ∧
          (exampleApply (exampleOptions false)).manifestError
            (exampleWorld ["namespaces/live/foo"] (exampleApplier none none)) "foo" = none ∧
          (exampleWorld ["namespaces/live/foo"] (exampleApplier none none)).Setenv
            "KUBE_CONFIG_PATH" (exampleApply (exampleOptions false)).Options.KubecfgPath
            = none ∧
          ((exampleWorld ["namespaces/live/foo"] (exampleApplier none none)).IsFilePathExists
            ((exampleApply (exampleOptions false)).repoPath "foo" ++ "/resources")).2 = none ∧
          ((exampleWorld ["namespaces/live/foo"] (exampleApplier none none)).IsFilePathExists
            ((exampleApply (exampleOptions false)).repoPath "foo" ++ "/resources")).1 = true
      then
        [Event.TerraformInitAndApply "foo"
          ("namespaces/" ++ (exampleApply (exampleOptions false)).Options.ClusterDir ++ "/" ++
            "foo" ++ "/resources")]
      else [] :=
  applyNamespace_terraform_aligned
    (exampleWorld ["namespaces/live/foo"] (exampleApplier none none))
    (exampleApply (exampleOptions false)) "foo"

/-! ## The apply-skip file -/

theorem applyKubectl_events (b : Environment.Apply) :
    b.applyKubectl.1 = [Event.KubectlApply b.Options.Namespace b.Dir false] := by
  rcases h : b.Applier.KubectlApply b.Options.Namespace b.Dir false with ⟨o, _ | e⟩
  · rw [applyKubectl_of_success b o h]
  · rw [applyKubectl_of_error b o e h]

/-- C2: for an existing namespace without secret-rotation blocker that holds the
APPLY_PIPELINE_SKIP_THIS_NAMESPACE file. With `EnableApplySkip` true the call
returns nil with no effect. With `EnableApplySkip` false the namespace passes
the policy check, the call enters the apply pipeline (its first effect is the
`KubectlApply` call when the namespace has yaml files, the `os.Setenv` of the
infra step otherwise), and events and error are exactly those in the world where
`os.Stat` of the skip file has any other outcome (such as not existing). -/
theorem applyNamespace_apply_skip (w : World) (a : Environment.Apply) (nspace : String)
    (hdir : w.Stat (a.repoPath nspace) = StatResult.ok)
    (hnoblock : w.Stat (a.repoPath nspace ++ "/" ++ "SECRET_ROTATE_BLOCK") ≠ StatResult.ok)
    (hskip : w.Stat (a.repoPath nspace ++ "/" ++ "APPLY_PIPELINE_SKIP_THIS_NAMESPACE")
      = StatResult.ok) :
    (a.withEnableApplySkip true).applyNamespace w nspace = ([], none) ∧
    (a.withEnableApplySkip false).passesGate w nspace = true ∧
    ((a.withEnableApplySkip false).applyNamespace w nspace).1.head? =
      some (if w.IsYamlFileExists (a.repoPath nspace) then
          Event.KubectlApply nspace (a.repoPath nspace) false
        else Event.Setenv "KUBE_CONFIG_PATH" a.Options.KubecfgPath) ∧
    (∀ r : StatResult,
      (a.withEnableApplySkip false).applyNamespace w nspace =
        (a.withEnableApplySkip false).applyNamespace
          (w.withStat (a.repoPath nspace ++ "/" ++ "APPLY_PIPELINE_SKIP_THIS_NAMESPACE") r)
          nspace) := by
  have hrepo : ∀ b : Bool, (a.withEnableApplySkip b).repoPath nspace = a.repoPath nspace :=
    fun _ => rfl
  have hflag : ∀ b : Bool, (a.withEnableApplySkip b).Options.EnableApplySkip = b :=
    fun _ => rfl
  have hgate : (a.withEnableApplySkip false).passesGate w nspace = true := by
    simp [Apply.passesGate, secretBlockerExists, hrepo, hflag, hdir, hnoblock]
  refine ⟨?_, hgate, ?_, ?_⟩
  · unfold Apply.applyNamespace
    simp [secretBlockerExists, applySkipExists, hrepo, hflag, hdir, hnoblock, hskip]
  · rw [applyNamespace_of_passesGate w _ nspace hgate]
    have hK : ((a.withEnableApplySkip false).applierFor w nspace).applyKubectl.1 =
        [Event.KubectlApply nspace (a.repoPath nspace) false] :=
      applyKubectl_events ((a.withEnableApplySkip false).applierFor w nspace)
    have hcfg : (a.withEnableApplySkip false).Options.KubecfgPath = a.Options.KubecfgPath :=
      rfl
    rw [hrepo false, hcfg]
    cases hY : w.IsYamlFileExists (a.repoPath nspace) <;>
    rcases hk : ((a.withEnableApplySkip false).applierFor w nspace).applyKubectl
      with ⟨ev, out, _ | ke⟩ <;>
    rcases hS : w.Setenv "KUBE_CONFIG_PATH" a.Options.KubecfgPath with _ | se <;>
    rcases hF : w.IsFilePathExists (a.repoPath nspace ++ "/resources")
      with ⟨_ | _, _ | fe⟩ <;>
    rcases ht : ({ (a.withEnableApplySkip false).applierFor w nspace with
      GithubClient := (a.withEnableApplySkip false).GithubClient }
      : Environment.Apply).applyTerraform with ⟨ev3, out3, _ | te⟩ <;>
    simp only [hk] at hK <;>
    simp [hK]
  · intro r
    have h1 : a.repoPath nspace ≠
        a.repoPath nspace ++ "/" ++ "APPLY_PIPELINE_SKIP_THIS_NAMESPACE" := by
      rw [String.append_assoc]
      exact String.ne_append_of_ne_empty _ _ (by decide)
    have h2 : a.repoPath nspace ++ "/" ++ "SECRET_ROTATE_BLOCK" ≠
        a.repoPath nspace ++ "/" ++ "APPLY_PIPELINE_SKIP_THIS_NAMESPACE" :=
      String.append_left_ne _ _ _ (by decide)
    unfold Apply.applyNamespace
    simp only [secretBlockerExists, hrepo, hflag, Bool.false_and,
      World.withStat_of_ne w _ _ r h1, World.withStat_of_ne w _ _ r h2]
    rfl

theorem applyNamespace_apply_skip_witness :
    ((exampleApply (exampleOptions false)).withEnableApplySkip true).applyNamespace
        (exampleWorld
          ["namespaces/live/foo", "namespaces/live/foo/APPLY_PIPELINE_SKIP_THIS_NAMESPACE"]
          (exampleApplier none none)) "foo" = ([], none) ∧
    ((exampleApply (exampleOptions false)).withEnableApplySkip false).passesGate
        (exampleWorld
          ["namespaces/live/foo", "namespaces/live/foo/APPLY_PIPELINE_SKIP_THIS_NAMESPACE"]
          (exampleApplier none none)) "foo" = true ∧
    (((exampleApply (exampleOptions false)).withEnableApplySkip false).applyNamespace
        (exampleWorld
          ["namespaces/live/foo", "namespaces/live/foo/APPLY_PIPELINE_SKIP_THIS_NAMESPACE"]
          (exampleApplier none none)) "foo").1.head? =
      some (if (exampleWorld
          ["namespaces/live/foo", "namespaces/live/foo/APPLY_PIPELINE_SKIP_THIS_NAMESPACE"]
          (exampleApplier none none)).IsYamlFileExists
            ((exampleApply (exampleOptions false)).repoPath "foo") then
          Event.KubectlApply "foo" ((exampleApply (exampleOptions false)).repoPath "foo") false
        else Event.Setenv "KUBE_CONFIG_PATH" (exampleApply (exampleOptions false)).Options.KubecfgPath) ∧
    (∀ r : StatResult,
      ((exampleApply (exampleOptions false)).withEnableApplySkip false).applyNamespace
        (exampleWorld
          ["namespaces/live/foo", "namespaces/live/foo/APPLY_PIPELINE_SKIP_THIS_NAMESPACE"]
          (exampleApplier none none)) "foo" =
        ((exampleApply (exampleOptions false)).withEnableApplySkip false).applyNamespace
          ((exampleWorld
          ["namespaces/live/foo", "namespaces/live/foo/APPLY_PIPELINE_SKIP_THIS_NAMESPACE"]
          (exampleApplier none none)).withStat
            ((exampleApply (exampleOptions false)).repoPath "foo" ++ "/" ++ "APPLY_PIPELINE_SKIP_THIS_NAMESPACE") r)
          "foo") :=
  applyNamespace_apply_skip
    (exampleWorld
          ["namespaces/live/foo", "namespaces/live/foo/APPLY_PIPELINE_SKIP_THIS_NAMESPACE"]
          (exampleApplier none none))
    (exampleApply (exampleOptions false)) "foo" (by decide) (by decide) (by decide)

/-! ## `applyNamespaceDirs` -/

theorem applyNamespaceDirsRun_inv (w : World) (a : Environment.Apply)
    (chunkFolder : List String) (sched : List Actor) (s : Dispatch)
    (hs : a.applyNamespaceDirsRun w chunkFolder sched = some s) :
    s.Inv (a.runApplyTask w) chunkFolder 3 :=
  Dispatch.exec_inv (a.runApplyTask w) chunkFolder 3 sched _ s
    (Dispatch.inv_init _ chunkFolder 3) hs

theorem applyNamespaceDirs_eq_some (w : World) (a : Environment.Apply)
    (chunkFolder : List String) (sched : List Actor) (r : List String × GoError)
    (h : a.applyNamespaceDirs w chunkFolder sched = some r) :
    ∃ s, a.applyNamespaceDirsRun w chunkFolder sched = some s ∧ s.finished = true ∧
      r = (s.erroredNs, none) := by
  unfold Apply.applyNamespaceDirs at h
  cases hrun : a.applyNamespaceDirsRun w chunkFolder sched with
  | none => simp [hrun] at h
  | some s =>
    cases hfin : s.finished with
    | false => simp [hrun, hfin] at h
    | true =>
      simp only [hrun, hfin, if_true, Option.some.injEq] at h
      exact ⟨s, rfl, hfin, h.symm⟩

theorem Dispatch.collected_le (task : String → Option String) (dirs : List String) (n : Nat)
    (s : Dispatch) (hinv : s.Inv task dirs n) :
    s.erroredNs.length ≤ dirs.length ∧
    (s.erroredNs.length = dirs.length → ∀ d ∈ dirs, task d ≠ none) := by
  obtain ⟨_, hout, _, _⟩ := hinv
  have hle : ((s.erroredNs.map some : List (Option String)) : Multiset (Option String)) ≤
      ((dirs.map task : List (Option String)) : Multiset (Option String)) := by
    rw [← hout]
    unfold Dispatch.outcomes
    exact le_add_self
  have hcard := Multiset.card_le_card hle
  simp only [Multiset.coe_card, List.length_map] at hcard
  refine ⟨hcard, ?_⟩
  intro hlen d hd hnone
  have heq := Multiset.eq_of_le_of_card_le hle (by simp [hlen])
  have hmem : task d ∈ ((dirs.map task : List (Option String)) : Multiset (Option String)) := by
    simp only [Multiset.mem_coe, List.mem_map]
    exact ⟨d, hd, rfl⟩
  rw [← heq, hnone] at hmem
  simp at hmem

theorem applyNamespaceDirs_none_of_panic (w : World) (a : Environment.Apply)
    (chunkFolder : List String) (d : String) (hd : d ∈ chunkFolder)
    (hnone : a.runApplyTask w d = none) (sched : List Actor) :
    a.applyNamespaceDirs w chunkFolder sched = none := by
  cases h : a.applyNamespaceDirs w chunkFolder sched with
  | none => rfl
  | some r =>
    obtain ⟨s, hs, hfin, _⟩ := applyNamespaceDirs_eq_some w a chunkFolder sched r h
    have hinv := applyNamespaceDirsRun_inv w a chunkFolder sched s hs
    have hperm := Dispatch.finished_results _ chunkFolder 3 (by omega) s hinv hfin
    have hlen : s.erroredNs.length = chunkFolder.length := by simpa using hperm.length_eq
    exact absurd hnone ((Dispatch.collected_le _ chunkFolder 3 s hinv).2 hlen d hd)

theorem applyNamespaceDirs_extends (w : World) (a : Environment.Apply)
    (chunkFolder : List String)
    (hdirs : ∀ d ∈ chunkFolder, 3 ≤ (strings.Split d '/').length)
    (sched : List Actor) (s : Dispatch)
    (hs : a.applyNamespaceDirsRun w chunkFolder sched = some s) :
    ∃ rest res, a.applyNamespaceDirs w chunkFolder (sched ++ rest) = some (res, none) := by
  have htask : ∀ d ∈ chunkFolder, a.runApplyTask w d ≠ none :=
    fun d hd => runApplyTask_ne_none w a d (hdirs d hd)
  have hinv := applyNamespaceDirsRun_inv w a chunkFolder sched s hs
  obtain ⟨rest, s1, hex, hfin⟩ :=
    Dispatch.complete (a.runApplyTask w) chunkFolder 3 htask s.cost s rfl hinv
  refine ⟨rest, s1.erroredNs, ?_⟩
  have happ := Dispatch.exec_append (a.runApplyTask w) sched rest _ s hs
  simp [Apply.applyNamespaceDirs, Apply.applyNamespaceDirsRun, happ, hex, hfin]

/-- C5, as stated, fails: for the list `["foo"]` the function literal of
`runApply` panics at `ns[2]` (the directory has one segment), so no run of
`applyNamespaceDirs` returns, with a nil error or otherwise. -/
theorem applyNamespaceDirs_one_segment_never_returns :
    (exampleApply (exampleOptions false)).runApplyTask (exampleWorld ["namespaces/live/foo"] (exampleApplier (some "exit status 1") none)) "foo" = none ∧
    ¬ ∃ sched r, (exampleApply (exampleOptions false)).applyNamespaceDirs (exampleWorld ["namespaces/live/foo"] (exampleApplier (some "exit status 1") none)) ["foo"] sched = some r := by
  refine ⟨by decide, ?_⟩
  rintro ⟨sched, r, h⟩
  rw [applyNamespaceDirs_none_of_panic (exampleWorld ["namespaces/live/foo"] (exampleApplier (some "exit status 1") none)) (exampleApply (exampleOptions false)) ["foo"] "foo" (by simp) (by decide) sched] at h
  exact absurd h (by simp)

/-- C5, amended: for every list of directories that each have at least three
`/`-separated segments (`namespaces/<cluster>/<namespace>`) and whatever the
outcome of each pull and each apply: whenever `applyNamespaceDirs` returns, the
error is nil and the collected results are those of every directory of the
list, each once; it returns exactly on the runs in which every goroutine has
finished; a run has at most `4 * N + 6` moves, one that is not over can always
move on, and every run extends to one on which the call returns nil. -/
theorem applyNamespaceDirs_never_fails (w : World) (a : Environment.Apply)
    (chunkFolder : List String)
    (hdirs : ∀ d ∈ chunkFolder, 3 ≤ (strings.Split d '/').length) :
    (∀ sched r, a.applyNamespaceDirs w chunkFolder sched = some r →
      r.2 = none ∧ (r.1.map some).Perm (chunkFolder.map (a.runApplyTask w))) ∧
    (∀ sched s, a.applyNamespaceDirsRun w chunkFolder sched = some s →
      sched.length ≤ 4 * chunkFolder.length + 6 ∧
      (s.finished = false →
        a.applyNamespaceDirs w chunkFolder sched = none ∧
        ∃ act s1, s.step (a.runApplyTask w) act = some s1) ∧
      (s.finished = true →
        a.applyNamespaceDirs w chunkFolder sched = some (s.erroredNs, none)) ∧
      ∃ rest res, a.applyNamespaceDirs w chunkFolder (sched ++ rest) = some (res, none)) := by
  have htask : ∀ d ∈ chunkFolder, a.runApplyTask w d ≠ none :=
    fun d hd => runApplyTask_ne_none w a d (hdirs d hd)
  constructor
  · intro sched r h
    obtain ⟨s, hs, hfin, rfl⟩ := applyNamespaceDirs_eq_some w a chunkFolder sched r h
    have hinv := applyNamespaceDirsRun_inv w a chunkFolder sched s hs
    exact ⟨rfl, Dispatch.finished_results _ chunkFolder 3 (by omega) s hinv hfin⟩
  · intro sched s hs
    have hinv := applyNamespaceDirsRun_inv w a chunkFolder sched s hs
    have hcost := Dispatch.exec_cost (a.runApplyTask w) sched _ s hs
    rw [Dispatch.cost_init] at hcost
    refine ⟨by omega, ?_, ?_, applyNamespaceDirs_extends w a chunkFolder hdirs sched s hs⟩
    · intro hfin
      exact ⟨by simp [Apply.applyNamespaceDirs, hs, hfin],
        Dispatch.progress _ chunkFolder 3 htask s hinv hfin⟩
    · intro hfin
      simp [Apply.applyNamespaceDirs, hs, hfin]

theorem applyNamespaceDirs_never_fails_witness :
    (exampleApply (exampleOptions false)).applyNamespaceDirs (exampleWorld ["namespaces/live/foo"] (exampleApplier (some "exit status 1") none)) ["namespaces/live/foo", "namespaces/live/bar"] exampleSchedule = some (exampleFinalState.erroredNs, none) ∧
    (∀ sched r, (exampleApply (exampleOptions false)).applyNamespaceDirs (exampleWorld ["namespaces/live/foo"] (exampleApplier (some "exit status 1") none)) ["namespaces/live/foo", "namespaces/live/bar"] sched = some r →
      r.2 = none ∧ (r.1.map some).Perm (["namespaces/live/foo", "namespaces/live/bar"].map ((exampleApply (exampleOptions false)).runApplyTask (exampleWorld ["namespaces/live/foo"] (exampleApplier (some "exit status 1") none))))) ∧
    (∀ sched s, (exampleApply (exampleOptions false)).applyNamespaceDirsRun (exampleWorld ["namespaces/live/foo"] (exampleApplier (some "exit status 1") none)) ["namespaces/live/foo", "namespaces/live/bar"] sched = some s →
      sched.length ≤ 4 * ["namespaces/live/foo", "namespaces/live/bar"].length + 6 ∧
      (s.finished = false →
        (exampleApply (exampleOptions false)).applyNamespaceDirs (exampleWorld ["namespaces/live/foo"] (exampleApplier (some "exit status 1") none)) ["namespaces/live/foo", "namespaces/live/bar"] sched = none ∧
        ∃ act s1, s.step ((exampleApply (exampleOptions false)).runApplyTask (exampleWorld ["namespaces/live/foo"] (exampleApplier (some "exit status 1") none))) act = some s1) ∧
      (s.finished = true →
        (exampleApply (exampleOptions false)).applyNamespaceDirs (exampleWorld ["namespaces/live/foo"] (exampleApplier (some "exit status 1") none)) ["namespaces/live/foo", "namespaces/live/bar"] sched = some (s.erroredNs, none)) ∧
      ∃ rest res, (exampleApply (exampleOptions false)).applyNamespaceDirs (exampleWorld ["namespaces/live/foo"] (exampleApplier (some "exit status 1") none)) ["namespaces/live/foo", "namespaces/live/bar"] (sched ++ rest) = some (res, none)) :=
  ⟨by decide, applyNamespaceDirs_never_fails (exampleWorld ["namespaces/live/foo"] (exampleApplier (some "exit status 1") none)) (exampleApply (exampleOptions false)) ["namespaces/live/foo", "namespaces/live/bar"] (by decide)⟩

/-- C6, as stated, fails: for the two tasks `namespaces/live/foo` and `bar` the
function literal of `runApply` panics on `bar` (`ns[2]` of a one-segment
directory), so no run of the dispatcher ever holds two collected results. -/
theorem applyNamespaceDirs_one_segment_loses_result :
    (exampleApply (exampleOptions false)).runApplyTask (exampleWorld ["namespaces/live/foo"] (exampleApplier none none)) "bar" = none ∧
    ¬ ∃ sched s, (exampleApply (exampleOptions false)).applyNamespaceDirsRun (exampleWorld ["namespaces/live/foo"] (exampleApplier none none)) ["namespaces/live/foo", "bar"] sched = some s ∧
      s.erroredNs.length = ["namespaces/live/foo", "bar"].length := by
  refine ⟨by decide, ?_⟩
  rintro ⟨sched, s, hs, hlen⟩
  have hinv := applyNamespaceDirsRun_inv (exampleWorld ["namespaces/live/foo"] (exampleApplier none none)) (exampleApply (exampleOptions false)) ["namespaces/live/foo", "bar"] sched s hs
  exact (Dispatch.collected_le _ _ 3 s hinv).2 hlen "bar" (by simp) (by decide)

/-- C6, amended: for every list of `N` directories that each have at least
three `/`-separated segments: whenever `applyNamespaceDirs` returns it has
collected exactly `N` results; in every state of a run at most 3 per-namespace
apply calls are in flight and at most `N` results are collected; every run
extends to one on which the call returns `N` results; and with at least three
directories some run has exactly 3 calls in flight. -/
theorem applyNamespaceDirs_three_workers (w : World) (a : Environment.Apply)
    (chunkFolder : List String)
    (hdirs : ∀ d ∈ chunkFolder, 3 ≤ (strings.Split d '/').length) :
    (∀ sched r, a.applyNamespaceDirs w chunkFolder sched = some r →
      r.1.length = chunkFolder.length) ∧
    (∀ sched s, a.applyNamespaceDirsRun w chunkFolder sched = some s →
      s.inFlight ≤ 3 ∧ s.erroredNs.length ≤ chunkFolder.length ∧
      ∃ rest res, a.applyNamespaceDirs w chunkFolder (sched ++ rest) = some (res, none) ∧
        res.length = chunkFolder.length) ∧
    (3 ≤ chunkFolder.length →
      ∃ sched s, a.applyNamespaceDirsRun w chunkFolder sched = some s ∧ s.inFlight = 3) := by
  have hlen : ∀ sched r, a.applyNamespaceDirs w chunkFolder sched = some r →
      r.1.length = chunkFolder.length := by
    intro sched r h
    obtain ⟨s, hs, hfin, rfl⟩ := applyNamespaceDirs_eq_some w a chunkFolder sched r h
    have hinv := applyNamespaceDirsRun_inv w a chunkFolder sched s hs
    have hperm := Dispatch.finished_results _ chunkFolder 3 (by omega) s hinv hfin
    simpa using hperm.length_eq
  refine ⟨hlen, ?_, ?_⟩
  · intro sched s hs
    have hinv := applyNamespaceDirsRun_inv w a chunkFolder sched s hs
    refine ⟨?_, (Dispatch.collected_le _ chunkFolder 3 s hinv).1, ?_⟩
    · have h3 : s.lanes.length = 3 := hinv.1
      unfold Dispatch.inFlight
      exact h3 ▸ List.countP_le_length _
    · obtain ⟨rest, res, hret⟩ := applyNamespaceDirs_extends w a chunkFolder hdirs sched s hs
      exact ⟨rest, res, hret, hlen _ _ hret⟩
  · intro h3
    match chunkFolder, h3 with
    | d0 :: d1 :: d2 :: rest, _ =>
      exact ⟨[Actor.worker 0, Actor.worker 1, Actor.worker 2], _, rfl, rfl⟩

theorem applyNamespaceDirs_three_workers_witness :
    ((exampleApply (exampleOptions false)).applyNamespaceDirs (exampleWorld ["namespaces/live/foo"] (exampleApplier none none))
        ["namespaces/live/foo", "namespaces/live/bar", "namespaces/live/baz"] exampleSchedule3).map
      (fun r => r.1.length) = some 3 ∧
    (∀ sched r,
      (exampleApply (exampleOptions false)).applyNamespaceDirs (exampleWorld ["namespaces/live/foo"] (exampleApplier none none))
        ["namespaces/live/foo", "namespaces/live/bar", "namespaces/live/baz"] sched = some r →
      r.1.length = ["namespaces/live/foo", "namespaces/live/bar", "namespaces/live/baz"].length) ∧
    (∀ sched s,
      (exampleApply (exampleOptions false)).applyNamespaceDirsRun (exampleWorld ["namespaces/live/foo"] (exampleApplier none none))
        ["namespaces/live/foo", "namespaces/live/bar", "namespaces/live/baz"] sched = some s →
      s.inFlight ≤ 3 ∧
      s.erroredNs.length ≤ ["namespaces/live/foo", "namespaces/live/bar", "namespaces/live/baz"].length ∧
      ∃ rest res,
        (exampleApply (exampleOptions false)).applyNamespaceDirs (exampleWorld ["namespaces/live/foo"] (exampleApplier none none))
          ["namespaces/live/foo", "namespaces/live/bar", "namespaces/live/baz"] (sched ++ rest) = some (res, none) ∧
        res.length = ["namespaces/live/foo", "namespaces/live/bar", "namespaces/live/baz"].length) ∧
    (3 ≤ ["namespaces/live/foo", "namespaces/live/bar", "namespaces/live/baz"].length →
      ∃ sched s,
        (exampleApply (exampleOptions false)).applyNamespaceDirsRun (exampleWorld ["namespaces/live/foo"] (exampleApplier none none))
          ["namespaces/live/foo", "namespaces/live/bar", "namespaces/live/baz"] sched = some s ∧
        s.inFlight = 3) :=
  ⟨by decide,
    applyNamespaceDirs_three_workers (exampleWorld ["namespaces/live/foo"] (exampleApplier none none)) (exampleApply (exampleOptions false))
      ["namespaces/live/foo", "namespaces/live/bar", "namespaces/live/baz"] (by decide)⟩

end Environment
